import Mathlib

/-!
# AWS WAF regex pattern set / regex match set resource handlers

Shallow embedding of `aws/resource_aws_waf_regex_pattern_set.go` and
`aws/resource_aws_waf_regex_match_set.go`.

* Go slices are lists; where a function overwrites cells of a slice that its caller still
  holds, the cells are tracked explicitly (`Slice`).
* `*string` values produced by `aws.String` are plain strings.
* A Go panic (failed type assertion, nil map entry, index out of range) is `none` in a pure
  function and `Outcome.panic` in a handler.
* The remote service is an arbitrary state machine; a handler returns its result together with
  the log of what it asked of the connection and of the retryer.
-/

/-! ## Change operations on a regex pattern set -/

/-- The constant `waf.ChangeActionDelete` of the AWS SDK. -/
def ChangeActionDelete : String := "DELETE"

/-- The constant `waf.ChangeActionInsert` of the AWS SDK. -/
def ChangeActionInsert : String := "INSERT"

/-- The SDK record `waf.RegexPatternSetUpdate`. -/
structure RegexPatternSetUpdate where
  Action : String
  RegexPatternString : String
deriving DecidableEq, Repr

/-- The loop of `sliceContainsString`, started at index `idx`. -/
def sliceContainsStringFrom (s : String) : List String → Nat → Int × Bool
  | [], _ => (-1, false)
  | v :: rest, idx =>
    if v = s then ((idx : Int), true) else sliceContainsStringFrom s rest (idx + 1)

/-- Go `sliceContainsString(slice, s)`: index of the first element equal to `s`. -/
def sliceContainsString (slice : List String) (s : String) : Int × Bool :=
  sliceContainsStringFrom s slice 0

/-- A Go slice as the callee sees it: `vis` are the cells below its length, `hidden` the cells of
the same backing array that follow them (the caller's slice header, whose length never shrinks,
still covers them). -/
structure Slice (α : Type) where
  vis : List α
  hidden : List α
deriving DecidableEq, Repr

/-- The cells the caller's slice header covers. -/
def Slice.cells {α : Type} (s : Slice α) : List α := s.vis ++ s.hidden

/-- Go `s = append(s[:idx], s[idx+1:]...)` for `idx < len(s)`: the cells after `idx` are copied
one place down inside the backing array, the length drops by one, and the cell that held the last
element keeps its value. -/
def Slice.remove {α : Type} (s : Slice α) (idx : Nat) : Slice α :=
  { vis := s.vis.eraseIdx idx, hidden := s.vis.getLast?.toList ++ s.hidden }

/-- The first loop of `diffWafRegexPatternSetPatternStrings` (`for _, op := range oldPatterns`),
threading `newPatterns` and `updates`. -/
def diffWafRegexPatternSetPatternStringsLoop :
    List String → Slice String → List RegexPatternSetUpdate →
      List RegexPatternSetUpdate × Slice String
  | [], newPatterns, updates => (updates, newPatterns)
  | op :: rest, newPatterns, updates =>
    match sliceContainsString newPatterns.vis op with
    | (idx, true) =>
      diffWafRegexPatternSetPatternStringsLoop rest (newPatterns.remove idx.toNat) updates
    | (_, false) =>
      diffWafRegexPatternSetPatternStringsLoop rest newPatterns
        (updates ++ [{ Action := ChangeActionDelete, RegexPatternString := op }])

/-- Go `diffWafRegexPatternSetPatternStrings(oldPatterns, newPatterns)`: the returned updates. -/
def diffWafRegexPatternSetPatternStrings (oldPatterns newPatterns : List String) :
    List RegexPatternSetUpdate :=
  let r := diffWafRegexPatternSetPatternStringsLoop oldPatterns ⟨newPatterns, []⟩ []
  r.1 ++ r.2.vis.map (fun np => { Action := ChangeActionInsert, RegexPatternString := np })

/-- The contents of the caller's `newPatterns` slice after
`diffWafRegexPatternSetPatternStrings(oldPatterns, newPatterns)` has returned: the function
removes matched elements in place. -/
def diffWafRegexPatternSetPatternStringsLeaves (oldPatterns newPatterns : List String) :
    List String :=
  (diffWafRegexPatternSetPatternStringsLoop oldPatterns ⟨newPatterns, []⟩ []).2.cells

/-- The strings for which the first loop emits a Delete, given the working copy `w` of the new
patterns: a closed form of the loop used in the proofs. -/
def deletedStrings : List String → List String → List String
  | [], _ => []
  | op :: rest, w =>
    if op ∈ w then deletedStrings rest (w.erase op) else op :: deletedStrings rest w

/-- Every Delete of a list of actions comes before every Insert. -/
def DeletesBeforeInserts (actions : List String) : Prop :=
  ∀ (i j : Nat) (hi : i < actions.length) (hj : j < actions.length),
    actions[i] = ChangeActionDelete → actions[j] = ChangeActionInsert → i < j

/-- What applying one change operation to a set of strings means: a Delete removes a string that
is present, an Insert adds a string that is absent; anything else fails (`none`). This is the
reading under which a diff is said to turn the old set into the new one, not code of the
repository. -/
def applyUpdate (set : Finset String) (u : RegexPatternSetUpdate) : Option (Finset String) :=
  if u.Action = ChangeActionDelete then
    if u.RegexPatternString ∈ set then some (set.erase u.RegexPatternString) else none
  else if u.Action = ChangeActionInsert then
    if u.RegexPatternString ∈ set then none else some (insert u.RegexPatternString set)
  else none

/-- The set after a list of change operations applied in order, `none` if one of them fails. -/
def applyUpdates : Finset String → List RegexPatternSetUpdate → Option (Finset String)
  | set, [] => some set
  | set, u :: us => (applyUpdate set u).bind (fun set1 => applyUpdates set1 us)

/-! ## Tuples of a regex match set -/

/-- A value found under a key of a Go `map[string]interface{}` of resource data: a string, a
`*schema.Set` of nested maps, or a `[]interface{}` of nested maps (nested maps hold strings). -/
inductive Value
  | str (s : String)
  | set (items : List (List (String × String)))
  | list (items : List (List (String × String)))
deriving DecidableEq, Repr

/-- One element of `regex_match_tuple`: a `map[string]interface{}`, as its key/value pairs. -/
abbrev Tuple := List (String × Value)

/-- The SDK record `waf.FieldToMatch`; `none` is a nil pointer. The field `Type` of the SDK is
written `Type_`. -/
structure FieldToMatch where
  Data : Option String
  Type_ : Option String
deriving DecidableEq, Repr

/-- The SDK record `waf.ByteMatchTuple`; `none` is a nil pointer, `TargetString` the bytes of a
string. -/
structure ByteMatchTuple where
  FieldToMatch : Option FieldToMatch
  PositionalConstraint : Option String
  TargetString : String
  TextTransformation : Option String
deriving DecidableEq, Repr

/-- The SDK record `waf.ByteMatchSetUpdate`. -/
structure ByteMatchSetUpdate where
  Action : String
  ByteMatchTuple : ByteMatchTuple
deriving DecidableEq, Repr

/-- Functions of package `aws` that the two resource files call and that are defined in other
files of the package: they are parameters of the model. A result `none` is a panic. -/
structure Helpers where
  expandFieldToMatch : List (String × String) → Option FieldToMatch
  flattenFieldToMatch : FieldToMatch → Value
  sliceContainsMap : List Tuple → Tuple → Int × Bool

/-- Go `tuple[key].(string)`: panics when the key is absent (nil interface) or not a string. -/
def Tuple.getString (tuple : Tuple) (key : String) : Option String :=
  match tuple.lookup key with
  | some (Value.str s) => some s
  | _ => none

/-- Go `tuple["field_to_match"].(*schema.Set).List()[0].(map[string]interface{})`. -/
def Tuple.fieldToMatch (tuple : Tuple) : Option (List (String × String)) :=
  match tuple.lookup "field_to_match" with
  | some (Value.set (m :: _)) => some m
  | _ => none

/-- The literal `&waf.ByteMatchTuple{...}` that both loops of `diffWafByteMatchSetTuples` build
from a tuple; its fields are evaluated in the order written. -/
def byteMatchTupleOf (h : Helpers) (tuple : Tuple) : Option ByteMatchTuple :=
  (tuple.fieldToMatch).bind fun m =>
  (h.expandFieldToMatch m).bind fun ftm =>
  (tuple.getString "positional_constraint").bind fun pc =>
  (tuple.getString "target_string").bind fun ts =>
  (tuple.getString "text_transformation").bind fun tt =>
  some { FieldToMatch := some ftm, PositionalConstraint := some pc, TargetString := ts,
         TextTransformation := some tt }

/-- The first loop of `diffWafByteMatchSetTuples` (`for _, ot := range oldT`). The slice
expressions `newT[:idx]` and `newT[idx+1:]` panic unless `0 <= idx < len(newT)`. -/
def diffWafByteMatchSetTuplesLoop (h : Helpers) :
    List Tuple → Slice Tuple → List ByteMatchSetUpdate →
      Option (List ByteMatchSetUpdate × Slice Tuple)
  | [], newT, updates => some (updates, newT)
  | tuple :: rest, newT, updates =>
    match h.sliceContainsMap newT.vis tuple with
    | (idx, true) =>
      if 0 ≤ idx ∧ idx.toNat < newT.vis.length then
        diffWafByteMatchSetTuplesLoop h rest (newT.remove idx.toNat) updates
      else none
    | (_, false) =>
      match byteMatchTupleOf h tuple with
      | none => none
      | some t =>
        diffWafByteMatchSetTuplesLoop h rest newT
          (updates ++ [{ Action := ChangeActionDelete, ByteMatchTuple := t }])

/-- The second loop of `diffWafByteMatchSetTuples` (`for _, nt := range newT`). -/
def diffWafByteMatchSetTuplesInserts (h : Helpers) :
    List Tuple → List ByteMatchSetUpdate → Option (List ByteMatchSetUpdate)
  | [], updates => some updates
  | tuple :: rest, updates =>
    match byteMatchTupleOf h tuple with
    | none => none
    | some t =>
      diffWafByteMatchSetTuplesInserts h rest
        (updates ++ [{ Action := ChangeActionInsert, ByteMatchTuple := t }])

/-- Go `diffWafByteMatchSetTuples(oldT, newT)`: the returned updates together with the contents
of the caller's `newT` slice afterwards; `none` when the function panics. -/
def diffWafByteMatchSetTuplesRun (h : Helpers) (oldT newT : List Tuple) :
    Option (List ByteMatchSetUpdate × List Tuple) :=
  match diffWafByteMatchSetTuplesLoop h oldT ⟨newT, []⟩ [] with
  | none => none
  | some (updates, left) =>
    match diffWafByteMatchSetTuplesInserts h left.vis updates with
    | none => none
    | some out => some (out, left.cells)

/-- Go `diffWafByteMatchSetTuples(oldT, newT)`: the returned updates, `none` on a panic. -/
def diffWafByteMatchSetTuples (h : Helpers) (oldT newT : List Tuple) :
    Option (List ByteMatchSetUpdate) :=
  (diffWafByteMatchSetTuplesRun h oldT newT).map Prod.fst

/-- The declared schema of one `regex_match_tuple` element (lines 27 to 59 of the match set
file): no key other than `field_to_match`, `regex_pattern_set_id` and `text_transformation`;
`field_to_match` is a set of one map that has `type`, may have `data` and has no other key; the
other two are strings. -/
def conformsToSchema (tuple : Tuple) : Bool :=
  tuple.all (fun kv => kv.1 == "field_to_match" || kv.1 == "regex_pattern_set_id" ||
    kv.1 == "text_transformation") &&
  (match tuple.lookup "field_to_match" with
    | some (Value.set [m]) =>
      (m.lookup "type").isSome && m.all (fun kv => kv.1 == "type" || kv.1 == "data")
    | _ => false) &&
  (tuple.getString "regex_pattern_set_id").isSome &&
  (tuple.getString "text_transformation").isSome

/-- A tuple as the test configuration of a match set would give it. -/
def sampleRegexMatchTuple : Tuple :=
  [("field_to_match", Value.set [[("data", "referer"), ("type", "HEADER")]]),
   ("regex_pattern_set_id", Value.str "pattern-set-1"),
   ("text_transformation", Value.str "NONE")]

/-- A tuple with the keys that `diffWafByteMatchSetTuples` reads. -/
def sampleByteMatchTuple (target : String) : Tuple :=
  [("field_to_match", Value.set [[("data", "referer"), ("type", "HEADER")]]),
   ("positional_constraint", Value.str "CONTAINS"),
   ("target_string", Value.str target),
   ("text_transformation", Value.str "NONE")]

/-- Helper functions for concrete runs: `expandFieldToMatch` reads `type` and a non-empty
`data`, `flattenFieldToMatch` is its inverse, `sliceContainsMap` finds the first equal map. -/
def sampleHelpers : Helpers where
  expandFieldToMatch := fun m =>
    (m.lookup "type").map fun t =>
      { Type_ := some t, Data := (m.lookup "data").filter (fun d => d != "") }
  flattenFieldToMatch := fun fm =>
    Value.list [(fm.Data.toList.map fun d => ("data", d)) ++
      (fm.Type_.toList.map fun t => ("type", t))]
  sliceContainsMap := fun l m =>
    if m ∈ l then ((l.indexOf m : Nat), true) else (-1, false)

/-- The result of the match set diff at two old and two new sample tuples. -/
def sampleByteDiff : List ByteMatchSetUpdate :=
  [{ Action := "DELETE",
     ByteMatchTuple := { FieldToMatch := some { Data := some "referer", Type_ := some "HEADER" },
                         PositionalConstraint := some "CONTAINS", TargetString := "a",
                         TextTransformation := some "NONE" } },
   { Action := "INSERT",
     ByteMatchTuple := { FieldToMatch := some { Data := some "referer", Type_ := some "HEADER" },
                         PositionalConstraint := some "CONTAINS", TargetString := "c",
                         TextTransformation := some "NONE" } }]

/-! ## Errors -/

/-- A Go `error` value: an `awserr.Error` of the SDK with its code and message, an error made of
a text only (`fmt.Errorf`, `errors.New`), or an `errwrap` error that keeps the wrapped error. -/
inductive GoError
  | aws (code message : String)
  | text (msg : String)
  | wrapped (outer : String) (inner : GoError)
deriving DecidableEq, Repr

/-- Go `err.Error()`. For an `awserr.Error` without an original error the SDK prints the code,
a colon and the message. -/
def GoError.Error : GoError → String
  | GoError.aws code message => code ++ ": " ++ message
  | GoError.text msg => msg
  | GoError.wrapped outer _ => outer

/-- Go `fmt.Errorf(context + "%s", err)`: a new error whose text is the context followed by the
text of `err`. -/
def fmtErrorf (context : String) (err : GoError) : GoError :=
  GoError.text (context ++ err.Error)

/-- Go `errwrap.Wrapf(context + err-placeholder, err)`: an error whose text is the context
followed by the text of `err`, and which keeps `err` as its inner error. -/
def errwrapWrapf (context : String) (err : GoError) : GoError :=
  GoError.wrapped (context ++ err.Error) err

/-- Modelled from the spec: `isAWSErr` is defined outside the three files; the spec says a read
treats the remote report that the resource is missing as not found. It holds for an
`awserr.Error` with the given code whose message contains the given text. -/
def isAWSErr (err : GoError) (code message : String) : Bool :=
  match err with
  | GoError.aws c m => c == code && decide (message.data <:+: m.data)
  | _ => false

/-- The result of a Go call that returns a value and an error, or panics. -/
inductive Outcome (α : Type)
  | ok (a : α)
  | error (e : GoError)
  | panic
deriving DecidableEq, Repr

/-! ## The remote service -/

/-- The SDK record `waf.RegexPatternSet` as a Get or Create call returns it. -/
structure RegexPatternSet where
  RegexPatternSetId : String
  Name : String
  RegexPatternStrings : List String
deriving DecidableEq, Repr

/-- The SDK record `waf.ByteMatchSet` as a Get or Create call returns it. -/
structure ByteMatchSet where
  ByteMatchSetId : String
  Name : String
  ByteMatchTuples : List ByteMatchTuple
deriving DecidableEq, Repr

/-- A call on the connection `conn`, with its input. -/
inductive Call
  | CreateRegexPatternSet (ChangeToken Name : String)
  | GetRegexPatternSet (RegexPatternSetId : String)
  | UpdateRegexPatternSet (ChangeToken RegexPatternSetId : String)
      (Updates : List RegexPatternSetUpdate)
  | DeleteRegexPatternSet (ChangeToken RegexPatternSetId : String)
  | CreateByteMatchSet (ChangeToken Name : String)
  | GetByteMatchSet (ByteMatchSetId : String)
  | UpdateByteMatchSet (ChangeToken ByteMatchSetId : String) (Updates : List ByteMatchSetUpdate)
  | DeleteByteMatchSet (ChangeToken ByteMatchSetId : String)
deriving DecidableEq, Repr

/-- The connection `*waf.WAF`: every call answers from the state `σ` of the remote service and
may change it. The service is arbitrary: theorems quantify over it. -/
structure WAF (σ : Type) where
  GetChangeToken : σ → Except GoError String × σ
  CreateRegexPatternSet : String → String → σ → Except GoError RegexPatternSet × σ
  GetRegexPatternSet : String → σ → Except GoError RegexPatternSet × σ
  UpdateRegexPatternSet :
    String → String → List RegexPatternSetUpdate → σ → Except GoError Unit × σ
  DeleteRegexPatternSet : String → String → σ → Except GoError Unit × σ
  CreateByteMatchSet : String → String → σ → Except GoError ByteMatchSet × σ
  GetByteMatchSet : String → σ → Except GoError ByteMatchSet × σ
  UpdateByteMatchSet : String → String → List ByteMatchSetUpdate → σ → Except GoError Unit × σ
  DeleteByteMatchSet : String → String → σ → Except GoError Unit × σ

/-- One round of the retryer: the token could not be fetched, or the function ran with a token
and issued call `c` (answered with the error `err`, if any), or it panicked before any call. -/
inductive Attempt
  | noToken (e : GoError)
  | issued (c : Call) (err : Option GoError)
  | panicked (token : String)
deriving DecidableEq, Repr

/-- What a handler does to its surroundings: a call made directly on the connection with the
error it got, or one invocation of `wr.RetryWithToken` with the rounds it took. -/
inductive Interaction
  | direct (c : Call) (err : Option GoError)
  | retried (attempts : List Attempt)
deriving DecidableEq, Repr

/-- The value `meta.(*AWSClient)` with its field `wafconn`. Bundled with it are the parameters
of the model that the handlers reach without naming them: the helper functions of the package
and the policy of the retryer (which errors it retries and how many retries it has). -/
structure AWSClient (σ : Type) where
  wafconn : WAF σ
  helpers : Helpers
  retryable : GoError → Bool
  retries : Nat

/-- Modelled from the spec: the retryer made by `newWafRetryer(conn, region)`, which is defined
outside the three files: a connection, a region, and its retry policy. -/
structure WafRetryer (σ : Type) where
  Connection : WAF σ
  Region : String
  retryable : GoError → Bool
  retries : Nat

/-- Modelled from the spec: `newWafRetryer(conn, region)`, defined outside the three files. -/
def newWafRetryer {σ : Type} (client : AWSClient σ) (region : String) : WafRetryer σ :=
  { Connection := client.wafconn, Region := region, retryable := client.retryable,
    retries := client.retries }

/-- A function literal handed to `RetryWithToken`: from the token, the variables it captures
(`κ`) and the remote state it gives the call it issued with the answer (`none` if it panicked
first), the captured variables afterwards and the remote state afterwards. -/
abbrev WithTokenFunc (σ κ α : Type) := String → κ → σ → Option (Call × Except GoError α) × κ × σ

/-- Modelled from the spec: one round of the retryer, which is defined outside the three files.
It obtains a fresh token from the remote service immediately before the call, then runs the
function with it. -/
def WafRetryer.attempt {σ κ α : Type} (wr : WafRetryer σ) (f : WithTokenFunc σ κ α) (k : κ)
    (s : σ) : Outcome α × Attempt × κ × σ :=
  match wr.Connection.GetChangeToken s with
  | (Except.error e, s1) => (Outcome.error e, Attempt.noToken e, k, s1)
  | (Except.ok token, s1) =>
    match f token k s1 with
    | (none, k1, s2) => (Outcome.panic, Attempt.panicked token, k1, s2)
    | (some (c, Except.ok out), k1, s2) => (Outcome.ok out, Attempt.issued c none, k1, s2)
    | (some (c, Except.error e), k1, s2) =>
      (Outcome.error e, Attempt.issued c (some e), k1, s2)

/-- Modelled from the spec: the retryer repeats the sequence of token fetch and call on
conflict or throttling errors (`retryable`) until success or a fatal error, within its retry
budget; it returns the result of the last round. -/
def WafRetryer.loop {σ κ α : Type} (wr : WafRetryer σ) (f : WithTokenFunc σ κ α) :
    Nat → κ → σ → List Attempt → Outcome α × κ × σ × List Attempt
  | 0, k, s, attempts =>
    match wr.attempt f k s with
    | (r, a, k1, s1) => (r, k1, s1, attempts ++ [a])
  | budget + 1, k, s, attempts =>
    match wr.attempt f k s with
    | (Outcome.error e, a, k1, s1) =>
      if wr.retryable e then wr.loop f budget k1 s1 (attempts ++ [a])
      else (Outcome.error e, k1, s1, attempts ++ [a])
    | (r, a, k1, s1) => (r, k1, s1, attempts ++ [a])

/-- Modelled from the spec: `wr.RetryWithToken(f)`, defined outside the three files. -/
def WafRetryer.RetryWithToken {σ κ α : Type} (wr : WafRetryer σ) (f : WithTokenFunc σ κ α)
    (k : κ) (s : σ) : Outcome α × κ × σ × List Attempt :=
  wr.loop f wr.retries k s []

/-- The state a handler leaves: its result (`ok` is a nil error), the resource data, the state
of the remote service, and its interactions in order. -/
structure Run (σ δ : Type) where
  result : Outcome Unit
  d : δ
  world : σ
  log : List Interaction
deriving DecidableEq, Repr

/-- Equality of two `*schema.Set` values given by their lists: the same elements. -/
def setEqual {α : Type} [DecidableEq α] (a b : List α) : Bool :=
  a.all (fun x => decide (x ∈ b)) && b.all (fun x => decide (x ∈ a))

/-! ## The regex pattern set resource -/

/-- The `*schema.ResourceData` of an `aws_waf_regex_pattern_set`: its ID, its `name`, and the
set `regex_pattern_strings` by the list of its elements, once as stored in the prior state (the
old value of `GetChange`) and once as it is now (the value of `Get`, the new value of
`GetChange`, and what `Set` overwrites). -/
structure RegexPatternSetData where
  Id : String
  name : String
  regex_pattern_strings_prior : List String
  regex_pattern_strings : List String
deriving DecidableEq, Repr

/-- Go `d.HasChange("regex_pattern_strings")`. -/
def RegexPatternSetData.HasChange (d : RegexPatternSetData) : Bool :=
  !setEqual d.regex_pattern_strings_prior d.regex_pattern_strings

/-- Go `d.GetChange("regex_pattern_strings")` followed by `List()` on both sets. -/
def RegexPatternSetData.GetChange (d : RegexPatternSetData) : List String × List String :=
  (d.regex_pattern_strings_prior, d.regex_pattern_strings)

/-- Go `resourceAwsWafRegexPatternSetRead`. -/
def resourceAwsWafRegexPatternSetRead {σ : Type} (client : AWSClient σ)
    (d : RegexPatternSetData) (s : σ) (log : List Interaction) : Run σ RegexPatternSetData :=
  match client.wafconn.GetRegexPatternSet d.Id s with
  | (Except.error err, s1) =>
    if isAWSErr err "WAFNonexistentItemException" "" then
      { result := Outcome.ok (), d := { d with Id := "" }, world := s1,
        log := log ++ [Interaction.direct (Call.GetRegexPatternSet d.Id) (some err)] }
    else
      { result := Outcome.error err, d := d, world := s1,
        log := log ++ [Interaction.direct (Call.GetRegexPatternSet d.Id) (some err)] }
  | (Except.ok resp, s1) =>
    { result := Outcome.ok (),
      d := { d with name := resp.Name, regex_pattern_strings := resp.RegexPatternStrings },
      world := s1,
      log := log ++ [Interaction.direct (Call.GetRegexPatternSet d.Id) none] }

/-- The function literal of `updateWafRegexPatternSetPatternStrings`: it captures `id`, `oldT`
and the slice `newT`, whose cells the diff overwrites. -/
def updateWafRegexPatternSetPatternStringsFunc {σ : Type} (conn : WAF σ) (id : String)
    (oldT : List String) : WithTokenFunc σ (List String) Unit :=
  fun token newT s =>
    match conn.UpdateRegexPatternSet token id
        (diffWafRegexPatternSetPatternStrings oldT newT) s with
    | (r, s1) =>
      (some (Call.UpdateRegexPatternSet token id
          (diffWafRegexPatternSetPatternStrings oldT newT), r),
        diffWafRegexPatternSetPatternStringsLeaves oldT newT, s1)

/-- Go `updateWafRegexPatternSetPatternStrings(id, oldT, newT, conn)`. -/
def updateWafRegexPatternSetPatternStrings {σ : Type} (id : String) (oldT newT : List String)
    (client : AWSClient σ) (s : σ) (log : List Interaction) :
    Outcome Unit × σ × List Interaction :=
  match (newWafRetryer client "global").RetryWithToken
      (updateWafRegexPatternSetPatternStringsFunc client.wafconn id oldT) newT s with
  | (Outcome.error err, _, s1, attempts) =>
    (Outcome.error (fmtErrorf "Failed updating WAF Regex Pattern Set: " err), s1,
      log ++ [Interaction.retried attempts])
  | (Outcome.panic, _, s1, attempts) => (Outcome.panic, s1, log ++ [Interaction.retried attempts])
  | (Outcome.ok _, _, s1, attempts) => (Outcome.ok (), s1, log ++ [Interaction.retried attempts])

/-- Go `resourceAwsWafRegexPatternSetUpdate`. -/
def resourceAwsWafRegexPatternSetUpdate {σ : Type} (client : AWSClient σ)
    (d : RegexPatternSetData) (s : σ) (log : List Interaction) : Run σ RegexPatternSetData :=
  if d.HasChange then
    match updateWafRegexPatternSetPatternStrings d.Id d.GetChange.1 d.GetChange.2 client s log with
    | (Outcome.error err, s1, log1) =>
      { result := Outcome.error (fmtErrorf "Failed updating WAF Regex Pattern Set: " err),
        d := d, world := s1, log := log1 }
    | (Outcome.panic, s1, log1) => { result := Outcome.panic, d := d, world := s1, log := log1 }
    | (Outcome.ok _, s1, log1) => resourceAwsWafRegexPatternSetRead client d s1 log1
  else resourceAwsWafRegexPatternSetRead client d s log

/-- The function literal of `resourceAwsWafRegexPatternSetCreate`. -/
def createRegexPatternSetFunc {σ : Type} (conn : WAF σ) (name : String) :
    WithTokenFunc σ Unit RegexPatternSet :=
  fun token _ s =>
    match conn.CreateRegexPatternSet token name s with
    | (r, s1) => (some (Call.CreateRegexPatternSet token name, r), (), s1)

/-- Go `resourceAwsWafRegexPatternSetCreate`. -/
def resourceAwsWafRegexPatternSetCreate {σ : Type} (client : AWSClient σ)
    (d : RegexPatternSetData) (s : σ) (log : List Interaction) : Run σ RegexPatternSetData :=
  match (newWafRetryer client "global").RetryWithToken
      (createRegexPatternSetFunc client.wafconn d.name) () s with
  | (Outcome.error err, _, s1, attempts) =>
    { result := Outcome.error (fmtErrorf "Failed creating WAF Regex Pattern Set: " err),
      d := d, world := s1, log := log ++ [Interaction.retried attempts] }
  | (Outcome.panic, _, s1, attempts) =>
    { result := Outcome.panic, d := d, world := s1, log := log ++ [Interaction.retried attempts] }
  | (Outcome.ok resp, _, s1, attempts) =>
    resourceAwsWafRegexPatternSetUpdate client { d with Id := resp.RegexPatternSetId } s1
      (log ++ [Interaction.retried attempts])

/-- The function literal of `resourceAwsWafRegexPatternSetDelete`. -/
def deleteRegexPatternSetFunc {σ : Type} (conn : WAF σ) (id : String) :
    WithTokenFunc σ Unit Unit :=
  fun token _ s =>
    match conn.DeleteRegexPatternSet token id s with
    | (r, s1) => (some (Call.DeleteRegexPatternSet token id, r), (), s1)

/-- The second half of `resourceAwsWafRegexPatternSetDelete`: the delete-set call through the
retryer (lines 110 to 123). -/
def resourceAwsWafRegexPatternSetDeleteSet {σ : Type} (client : AWSClient σ)
    (d : RegexPatternSetData) (s : σ) (log : List Interaction) : Run σ RegexPatternSetData :=
  match (newWafRetryer client "global").RetryWithToken
      (deleteRegexPatternSetFunc client.wafconn d.Id) () s with
  | (Outcome.error err, _, s1, attempts) =>
    { result := Outcome.error (fmtErrorf "Failed deleting WAF Regex Pattern Set: " err),
      d := d, world := s1, log := log ++ [Interaction.retried attempts] }
  | (Outcome.panic, _, s1, attempts) =>
    { result := Outcome.panic, d := d, world := s1, log := log ++ [Interaction.retried attempts] }
  | (Outcome.ok _, _, s1, attempts) =>
    { result := Outcome.ok (), d := d, world := s1,
      log := log ++ [Interaction.retried attempts] }

/-- Go `resourceAwsWafRegexPatternSetDelete`. -/
def resourceAwsWafRegexPatternSetDelete {σ : Type} (client : AWSClient σ)
    (d : RegexPatternSetData) (s : σ) (log : List Interaction) : Run σ RegexPatternSetData :=
  if d.regex_pattern_strings.length > 0 then
    match updateWafRegexPatternSetPatternStrings d.Id d.regex_pattern_strings [] client s log with
    | (Outcome.error err, s1, log1) =>
      { result := Outcome.error (fmtErrorf "Error updating Regex Pattern Set: " err),
        d := d, world := s1, log := log1 }
    | (Outcome.panic, s1, log1) => { result := Outcome.panic, d := d, world := s1, log := log1 }
    | (Outcome.ok _, s1, log1) => resourceAwsWafRegexPatternSetDeleteSet client d s1 log1
  else resourceAwsWafRegexPatternSetDeleteSet client d s log

/-! ## The regex match set resource -/

/-- The `*schema.ResourceData` of an `aws_waf_regex_match_set`, as `RegexPatternSetData`, with
the set `regex_match_tuple` of maps. -/
structure RegexMatchSetData where
  Id : String
  name : String
  regex_match_tuple_prior : List Tuple
  regex_match_tuple : List Tuple
deriving DecidableEq, Repr

/-- Go `d.HasChange("regex_match_tuple")`. -/
def RegexMatchSetData.HasChange (d : RegexMatchSetData) : Bool :=
  !setEqual d.regex_match_tuple_prior d.regex_match_tuple

/-- Go `d.GetChange("regex_match_tuple")` followed by `List()` on both sets. -/
def RegexMatchSetData.GetChange (d : RegexMatchSetData) : List Tuple × List Tuple :=
  (d.regex_match_tuple_prior, d.regex_match_tuple)

/-- Go `flattenWafByteMatchTuples(bmt)`: `none` when a nil pointer is dereferenced. -/
def flattenWafByteMatchTuples (h : Helpers) : List ByteMatchTuple → Option (List Tuple)
  | [] => some []
  | t :: rest =>
    t.PositionalConstraint.bind fun pc =>
    t.TextTransformation.bind fun tt =>
    (flattenWafByteMatchTuples h rest).bind fun out =>
    some (((t.FieldToMatch.toList.map fun fm => ("field_to_match", h.flattenFieldToMatch fm)) ++
      [("positional_constraint", Value.str pc), ("target_string", Value.str t.TargetString),
       ("text_transformation", Value.str tt)]) :: out)

/-- Go `resourceAwsWafRegexMatchSetRead`. -/
def resourceAwsWafRegexMatchSetRead {σ : Type} (client : AWSClient σ)
    (d : RegexMatchSetData) (s : σ) (log : List Interaction) : Run σ RegexMatchSetData :=
  match client.wafconn.GetByteMatchSet d.Id s with
  | (Except.error err, s1) =>
    match err with
    | GoError.aws code _ =>
      if code = "WAFNonexistentItemException" then
        { result := Outcome.ok (), d := { d with Id := "" }, world := s1,
          log := log ++ [Interaction.direct (Call.GetByteMatchSet d.Id) (some err)] }
      else
        { result := Outcome.error err, d := d, world := s1,
          log := log ++ [Interaction.direct (Call.GetByteMatchSet d.Id) (some err)] }
    | _ =>
      { result := Outcome.error err, d := d, world := s1,
        log := log ++ [Interaction.direct (Call.GetByteMatchSet d.Id) (some err)] }
  | (Except.ok resp, s1) =>
    match flattenWafByteMatchTuples client.helpers resp.ByteMatchTuples with
    | none =>
      { result := Outcome.panic, d := { d with name := resp.Name }, world := s1,
        log := log ++ [Interaction.direct (Call.GetByteMatchSet d.Id) none] }
    | some tuples =>
      { result := Outcome.ok (),
        d := { d with name := resp.Name, regex_match_tuple := tuples },
        world := s1,
        log := log ++ [Interaction.direct (Call.GetByteMatchSet d.Id) none] }

/-- The function literal of `updateByteMatchSetResource`: it captures `id`, `oldT` and the
slice `newT`, whose cells the diff overwrites; it panics when the diff does. -/
def updateByteMatchSetResourceFunc {σ : Type} (conn : WAF σ) (h : Helpers) (id : String)
    (oldT : List Tuple) : WithTokenFunc σ (List Tuple) Unit :=
  fun token newT s =>
    match diffWafByteMatchSetTuplesRun h oldT newT with
    | none => (none, newT, s)
    | some (updates, left) =>
      match conn.UpdateByteMatchSet token id updates s with
      | (r, s1) => (some (Call.UpdateByteMatchSet token id updates, r), left, s1)

/-- Go `updateByteMatchSetResource(id, oldT, newT, conn)`. -/
def updateByteMatchSetResource {σ : Type} (id : String) (oldT newT : List Tuple)
    (client : AWSClient σ) (s : σ) (log : List Interaction) :
    Outcome Unit × σ × List Interaction :=
  match (newWafRetryer client "global").RetryWithToken
      (updateByteMatchSetResourceFunc client.wafconn client.helpers id oldT) newT s with
  | (Outcome.error err, _, s1, attempts) =>
    (Outcome.error (errwrapWrapf "[ERROR] Error updating ByteMatchSet: " err), s1,
      log ++ [Interaction.retried attempts])
  | (Outcome.panic, _, s1, attempts) => (Outcome.panic, s1, log ++ [Interaction.retried attempts])
  | (Outcome.ok _, _, s1, attempts) => (Outcome.ok (), s1, log ++ [Interaction.retried attempts])

/-- Go `resourceAwsWafRegexMatchSetUpdate`. -/
def resourceAwsWafRegexMatchSetUpdate {σ : Type} (client : AWSClient σ)
    (d : RegexMatchSetData) (s : σ) (log : List Interaction) : Run σ RegexMatchSetData :=
  if d.HasChange then
    match updateByteMatchSetResource d.Id d.GetChange.1 d.GetChange.2 client s log with
    | (Outcome.error err, s1, log1) =>
      { result := Outcome.error (errwrapWrapf "[ERROR] Error updating ByteMatchSet: " err),
        d := d, world := s1, log := log1 }
    | (Outcome.panic, s1, log1) => { result := Outcome.panic, d := d, world := s1, log := log1 }
    | (Outcome.ok _, s1, log1) => resourceAwsWafRegexMatchSetRead client d s1 log1
  else resourceAwsWafRegexMatchSetRead client d s log

/-- The function literal of `resourceAwsWafRegexMatchSetCreate`. -/
def createByteMatchSetFunc {σ : Type} (conn : WAF σ) (name : String) :
    WithTokenFunc σ Unit ByteMatchSet :=
  fun token _ s =>
    match conn.CreateByteMatchSet token name s with
    | (r, s1) => (some (Call.CreateByteMatchSet token name, r), (), s1)

/-- Go `resourceAwsWafRegexMatchSetCreate`. -/
def resourceAwsWafRegexMatchSetCreate {σ : Type} (client : AWSClient σ)
    (d : RegexMatchSetData) (s : σ) (log : List Interaction) : Run σ RegexMatchSetData :=
  match (newWafRetryer client "global").RetryWithToken
      (createByteMatchSetFunc client.wafconn d.name) () s with
  | (Outcome.error err, _, s1, attempts) =>
    { result := Outcome.error (errwrapWrapf "[ERROR] Error creating ByteMatchSet: " err),
      d := d, world := s1, log := log ++ [Interaction.retried attempts] }
  | (Outcome.panic, _, s1, attempts) =>
    { result := Outcome.panic, d := d, world := s1, log := log ++ [Interaction.retried attempts] }
  | (Outcome.ok resp, _, s1, attempts) =>
    resourceAwsWafRegexMatchSetUpdate client { d with Id := resp.ByteMatchSetId } s1
      (log ++ [Interaction.retried attempts])

/-- The function literal of `resourceAwsWafRegexMatchSetDelete`. -/
def deleteByteMatchSetFunc {σ : Type} (conn : WAF σ) (id : String) :
    WithTokenFunc σ Unit Unit :=
  fun token _ s =>
    match conn.DeleteByteMatchSet token id s with
    | (r, s1) => (some (Call.DeleteByteMatchSet token id, r), (), s1)

/-- The second half of `resourceAwsWafRegexMatchSetDelete`: the delete-set call through the
retryer (lines 140 to 153). -/
def resourceAwsWafRegexMatchSetDeleteSet {σ : Type} (client : AWSClient σ)
    (d : RegexMatchSetData) (s : σ) (log : List Interaction) : Run σ RegexMatchSetData :=
  match (newWafRetryer client "global").RetryWithToken
      (deleteByteMatchSetFunc client.wafconn d.Id) () s with
  | (Outcome.error err, _, s1, attempts) =>
    { result := Outcome.error (errwrapWrapf "[ERROR] Error deleting ByteMatchSet: " err),
      d := d, world := s1, log := log ++ [Interaction.retried attempts] }
  | (Outcome.panic, _, s1, attempts) =>
    { result := Outcome.panic, d := d, world := s1, log := log ++ [Interaction.retried attempts] }
  | (Outcome.ok _, _, s1, attempts) =>
    { result := Outcome.ok (), d := d, world := s1,
      log := log ++ [Interaction.retried attempts] }

/-- Go `resourceAwsWafRegexMatchSetDelete`. -/
def resourceAwsWafRegexMatchSetDelete {σ : Type} (client : AWSClient σ)
    (d : RegexMatchSetData) (s : σ) (log : List Interaction) : Run σ RegexMatchSetData :=
  if d.regex_match_tuple.length > 0 then
    match updateByteMatchSetResource d.Id d.regex_match_tuple [] client s log with
    | (Outcome.error err, s1, log1) =>
      { result := Outcome.error (fmtErrorf "Error updating ByteMatchSet: " err),
        d := d, world := s1, log := log1 }
    | (Outcome.panic, s1, log1) => { result := Outcome.panic, d := d, world := s1, log := log1 }
    | (Outcome.ok _, s1, log1) => resourceAwsWafRegexMatchSetDeleteSet client d s1 log1
  else resourceAwsWafRegexMatchSetDeleteSet client d s log

/-! ## Reading the log of a run -/

/-- The result of a round of the retryer, without its value. -/
def Attempt.outcome : Attempt → Outcome Unit
  | Attempt.noToken e => Outcome.error e
  | Attempt.issued _ none => Outcome.ok ()
  | Attempt.issued _ (some e) => Outcome.error e
  | Attempt.panicked _ => Outcome.panic

/-- A result without its value. -/
def Outcome.void {α : Type} : Outcome α → Outcome Unit
  | Outcome.ok _ => Outcome.ok ()
  | Outcome.error e => Outcome.error e
  | Outcome.panic => Outcome.panic

/-- The invocation of the retryer succeeded: its last round issued a call that got no error. -/
def succeeded (attempts : List Attempt) : Bool :=
  match attempts.getLast? with
  | some (Attempt.issued _ none) => true
  | _ => false

/-- The error of a result, if it is one. -/
def Outcome.failure {α : Type} : Outcome α → Option GoError
  | Outcome.error e => some e
  | _ => none

/-- The error with which the last interaction of a log failed, when that interaction is an
invocation of the retryer that gave up: the error of its last round. -/
def retryFailure (log : List Interaction) : Option GoError :=
  match log.getLast? with
  | some (Interaction.retried attempts) =>
    attempts.getLast?.bind (fun a => a.outcome.failure)
  | _ => none

/-- The error with which the last interaction of a log failed, when that interaction is a call
made directly on the connection. -/
def directFailure (log : List Interaction) : Option GoError :=
  match log.getLast? with
  | some (Interaction.direct _ err) => err
  | _ => none

/-- A round of an update of pattern set `id` that carries `updates`: it issued
`UpdateRegexPatternSet` with that ID and those operations, or it did not get a token. -/
def Attempt.updatesPatternSet (id : String) (updates : List RegexPatternSetUpdate) :
    Attempt → Bool
  | Attempt.noToken _ => true
  | Attempt.issued (Call.UpdateRegexPatternSet _ id1 updates1) _ =>
    decide (id1 = id ∧ updates1 = updates)
  | _ => false

/-- A round of the deletion of pattern set `id`: it issued `DeleteRegexPatternSet` with that
ID, or it did not get a token. -/
def Attempt.deletesPatternSet (id : String) : Attempt → Bool
  | Attempt.noToken _ => true
  | Attempt.issued (Call.DeleteRegexPatternSet _ id1) _ => decide (id1 = id)
  | _ => false

/-- The returned error `returned` carries the error `e` with added context: its text is a
non-empty context followed by the text of `e`. -/
def AddsContext (returned e : GoError) : Prop :=
  ∃ context : String, context ≠ "" ∧ returned.Error = context ++ e.Error

/-- How a run hands remote errors on. If its last interaction is an invocation of the retryer
that gave up with the remote error `e`, the run returns an error other than `e` that carries `e`
with added context. If its last interaction is a direct Get call that failed with an error `e`
other than not-found, the run returns `e` itself. -/
def ErrorsPropagate {σ δ : Type} (r : Run σ δ) : Prop :=
  (∀ e, retryFailure r.log = some e →
    ∃ x, r.result = Outcome.error x ∧ AddsContext x e ∧ x ≠ e) ∧
  (∀ e, directFailure r.log = some e →
    isAWSErr e "WAFNonexistentItemException" "" = false → r.result = Outcome.error e)

/-! ## A remote service for concrete runs -/

/-- A remote service whose state is the list of errors it will still give to update calls, one
per call; Get calls answer `get`, every other call succeeds. -/
def sampleWAF (get : Except GoError RegexPatternSet) : WAF (List GoError) where
  GetChangeToken := fun s => (Except.ok "token", s)
  CreateRegexPatternSet := fun _ name s =>
    (Except.ok { RegexPatternSetId := "id", Name := name, RegexPatternStrings := [] }, s)
  GetRegexPatternSet := fun _ s => (get, s)
  UpdateRegexPatternSet := fun _ _ _ s =>
    match s with
    | e :: rest => (Except.error e, rest)
    | [] => (Except.ok (), [])
  DeleteRegexPatternSet := fun _ _ s => (Except.ok (), s)
  CreateByteMatchSet := fun _ name s =>
    (Except.ok { ByteMatchSetId := "id", Name := name, ByteMatchTuples := [] }, s)
  GetByteMatchSet := fun _ s =>
    (match get with
      | Except.error e => Except.error e
      | Except.ok r =>
        Except.ok { ByteMatchSetId := r.RegexPatternSetId, Name := r.Name, ByteMatchTuples := [] },
     s)
  UpdateByteMatchSet := fun _ _ _ s =>
    match s with
    | e :: rest => (Except.error e, rest)
    | [] => (Except.ok (), [])
  DeleteByteMatchSet := fun _ _ s => (Except.ok (), s)

/-- A client of `sampleWAF` whose retryer retries stale-token conflicts, twice at most. -/
def sampleClient (get : Except GoError RegexPatternSet) : AWSClient (List GoError) where
  wafconn := sampleWAF get
  helpers := sampleHelpers
  retryable := fun e => isAWSErr e "WAFStaleDataException" ""
  retries := 2

/-- The conflict error of the remote service. -/
def staleError : GoError := GoError.aws "WAFStaleDataException" "stale change token"

/-- An error of the remote service that is neither a conflict nor a missing item. -/
def internalError : GoError := GoError.aws "WAFInternalErrorException" "internal failure"

/-- The error of the remote service for a missing item. -/
def notFoundError : GoError := GoError.aws "WAFNonexistentItemException" "no such set"

/-- A pattern set whose stored strings are a and b and whose planned strings are a and c. -/
def samplePatternSetData : RegexPatternSetData :=
  { Id := "id", name := "tfacc", regex_pattern_strings_prior := ["a", "b"],
    regex_pattern_strings := ["a", "c"] }

/-- A match set with one stored tuple that conforms to the schema. -/
def sampleMatchSetData : RegexMatchSetData :=
  { Id := "id", name := "tfacc", regex_match_tuple_prior := [sampleRegexMatchTuple],
    regex_match_tuple := [sampleRegexMatchTuple] }

/-- The answer of a Get call that finds the pattern set with the strings a and c. -/
def sampleGetOk : Except GoError RegexPatternSet :=
  Except.ok { RegexPatternSetId := "id", Name := "tfacc", RegexPatternStrings := ["a", "c"] }

/-! ## Proofs -/

theorem sliceContainsStringFrom_of_mem (s : String) :
    ∀ (l : List String) (k : Nat), s ∈ l →
      sliceContainsStringFrom s l k = (((k + l.indexOf s : Nat) : Int), true)
  | [], _, h => by simp at h
  | v :: rest, k, h => by
    by_cases hv : v = s
    · subst hv
      simp [sliceContainsStringFrom]
    · have hmem : s ∈ rest := by
        rcases List.mem_cons.1 h with h1 | h1
        · exact absurd h1.symm hv
        · exact h1
      have ih := sliceContainsStringFrom_of_mem s rest (k + 1) hmem
      have hne : ¬ s = v := fun h1 => hv h1.symm
      simp only [sliceContainsStringFrom, hv, if_false, ih]
      rw [List.indexOf_cons_ne _ hv]
      congr 2
      omega

theorem sliceContainsStringFrom_of_not_mem (s : String) :
    ∀ (l : List String) (k : Nat), s ∉ l → sliceContainsStringFrom s l k = (-1, false)
  | [], _, _ => rfl
  | v :: rest, k, h => by
    have hv : ¬ v = s := fun h1 => h (by simp [h1])
    have hr : s ∉ rest := fun h1 => h (List.mem_cons_of_mem _ h1)
    simp [sliceContainsStringFrom, hv, sliceContainsStringFrom_of_not_mem s rest (k + 1) hr]

theorem diffLoop_cons_mem (op : String) (rest : List String) (np : Slice String)
    (upd : List RegexPatternSetUpdate) (h : op ∈ np.vis) :
    diffWafRegexPatternSetPatternStringsLoop (op :: rest) np upd =
      diffWafRegexPatternSetPatternStringsLoop rest
        ⟨np.vis.erase op, np.vis.getLast?.toList ++ np.hidden⟩ upd := by
  have h1 := sliceContainsStringFrom_of_mem op np.vis 0 h
  simp only [diffWafRegexPatternSetPatternStringsLoop, sliceContainsString, h1, Slice.remove]
  simp

theorem diffLoop_cons_not_mem (op : String) (rest : List String) (np : Slice String)
    (upd : List RegexPatternSetUpdate) (h : op ∉ np.vis) :
    diffWafRegexPatternSetPatternStringsLoop (op :: rest) np upd =
      diffWafRegexPatternSetPatternStringsLoop rest np
        (upd ++ [{ Action := ChangeActionDelete, RegexPatternString := op }]) := by
  have h1 := sliceContainsStringFrom_of_not_mem op np.vis 0 h
  simp only [diffWafRegexPatternSetPatternStringsLoop, sliceContainsString, h1]

theorem diffLoop_updates :
    ∀ (old : List String) (np : Slice String) (upd : List RegexPatternSetUpdate),
      (diffWafRegexPatternSetPatternStringsLoop old np upd).1 =
        upd ++ (deletedStrings old np.vis).map
          (fun s => { Action := ChangeActionDelete, RegexPatternString := s })
  | [], np, upd => by simp [diffWafRegexPatternSetPatternStringsLoop, deletedStrings]
  | op :: rest, np, upd => by
    by_cases h : op ∈ np.vis
    · rw [diffLoop_cons_mem op rest np upd h, diffLoop_updates rest]
      simp [deletedStrings, h]
    · rw [diffLoop_cons_not_mem op rest np upd h, diffLoop_updates rest]
      simp [deletedStrings, h]

theorem diffLoop_vis :
    ∀ (old : List String) (np : Slice String) (upd : List RegexPatternSetUpdate),
      (diffWafRegexPatternSetPatternStringsLoop old np upd).2.vis = np.vis.diff old
  | [], np, upd => by simp [diffWafRegexPatternSetPatternStringsLoop]
  | op :: rest, np, upd => by
    by_cases h : op ∈ np.vis
    · rw [diffLoop_cons_mem op rest np upd h, diffLoop_vis rest]
      simp
    · rw [diffLoop_cons_not_mem op rest np upd h, diffLoop_vis rest]
      simp [List.erase_of_not_mem h]

/-- Closed form of the diff: the Deletes of the first loop, then one Insert per string left in
the working copy of the new patterns. -/
theorem diff_eq (old new : List String) :
    diffWafRegexPatternSetPatternStrings old new =
      (deletedStrings old new).map
          (fun s => { Action := ChangeActionDelete, RegexPatternString := s }) ++
        (new.diff old).map
          (fun s => { Action := ChangeActionInsert, RegexPatternString := s }) := by
  simp [diffWafRegexPatternSetPatternStrings, diffLoop_updates, diffLoop_vis]

theorem deletedStrings_nodup :
    ∀ (old w : List String), old.Nodup → deletedStrings old w = old.filter (fun s => s ∉ w)
  | [], _, _ => rfl
  | op :: rest, w, h => by
    have hrest : rest.Nodup := (List.nodup_cons.1 h).2
    have hop : op ∉ rest := (List.nodup_cons.1 h).1
    by_cases hm : op ∈ w
    · simp only [deletedStrings, hm, if_true]
      rw [deletedStrings_nodup rest _ hrest]
      rw [List.filter_cons_of_neg (by simpa using hm)]
      apply List.filter_congr
      intro x hx
      have hne : x ≠ op := fun h1 => hop (h1 ▸ hx)
      simp [List.mem_erase_of_ne hne]
    · simp only [deletedStrings, hm, if_false]
      rw [deletedStrings_nodup rest _ hrest]
      rw [List.filter_cons_of_pos (by simpa using hm)]

/-- Closed form of the diff of two duplicate-free lists. -/
theorem diff_eq_of_nodup (old new : List String) (ho : old.Nodup) (hn : new.Nodup) :
    diffWafRegexPatternSetPatternStrings old new =
      (old.filter (fun s => s ∉ new)).map
          (fun s => { Action := ChangeActionDelete, RegexPatternString := s }) ++
        (new.filter (fun s => s ∉ old)).map
          (fun s => { Action := ChangeActionInsert, RegexPatternString := s }) := by
  rw [diff_eq, deletedStrings_nodup old new ho, hn.diff_eq_filter]

theorem count_map_delete (s : String) (l : List String) :
    (l.map (fun s => ({ Action := ChangeActionDelete, RegexPatternString := s } :
      RegexPatternSetUpdate))).count { Action := ChangeActionDelete, RegexPatternString := s } =
      l.count s := by
  induction l with
  | nil => rfl
  | cons a t ih =>
    by_cases h : a = s
    · subst h; simp [ih]
    · have h2 : ¬ (a == s) = true := by simpa using h
      simp [List.count_cons, ih, h]

theorem count_map_insert (s : String) (l : List String) :
    (l.map (fun s => ({ Action := ChangeActionInsert, RegexPatternString := s } :
      RegexPatternSetUpdate))).count { Action := ChangeActionInsert, RegexPatternString := s } =
      l.count s := by
  induction l with
  | nil => rfl
  | cons a t ih =>
    by_cases h : a = s
    · subst h; simp [ih]
    · simp [List.count_cons, ih, h]

theorem count_delete_in_inserts (s : String) (l : List String) :
    (l.map (fun s => ({ Action := ChangeActionInsert, RegexPatternString := s } :
      RegexPatternSetUpdate))).count { Action := ChangeActionDelete, RegexPatternString := s } =
      0 := by
  rw [List.count_eq_zero]
  intro h
  rcases List.mem_map.1 h with ⟨x, _, hx⟩
  have := congrArg RegexPatternSetUpdate.Action hx
  simp [ChangeActionInsert, ChangeActionDelete] at this

theorem count_insert_in_deletes (s : String) (l : List String) :
    (l.map (fun s => ({ Action := ChangeActionDelete, RegexPatternString := s } :
      RegexPatternSetUpdate))).count { Action := ChangeActionInsert, RegexPatternString := s } =
      0 := by
  rw [List.count_eq_zero]
  intro h
  rcases List.mem_map.1 h with ⟨x, _, hx⟩
  have := congrArg RegexPatternSetUpdate.Action hx
  simp [ChangeActionInsert, ChangeActionDelete] at this

theorem count_filter_nodup (s : String) (l : List String) (p : String → Bool) (h : l.Nodup) :
    (l.filter p).count s = if s ∈ l ∧ p s = true then 1 else 0 := by
  rw [List.count_eq_of_nodup (h.filter p)]
  simp [List.mem_filter]

/-- C1: for duplicate-free lists `old` and `new`, the diff holds exactly one Delete for each
string of `old` that is not in `new`, exactly one Insert for each string of `new` that is not in
`old`, and nothing else; a string present in both gets no operation. -/
theorem diff_exact_operations (old new : List String) (ho : old.Nodup) (hn : new.Nodup) :
    (∀ s, (diffWafRegexPatternSetPatternStrings old new).count
        { Action := ChangeActionDelete, RegexPatternString := s } =
          if s ∈ old ∧ s ∉ new then 1 else 0) ∧
    (∀ s, (diffWafRegexPatternSetPatternStrings old new).count
        { Action := ChangeActionInsert, RegexPatternString := s } =
          if s ∈ new ∧ s ∉ old then 1 else 0) ∧
    (∀ u ∈ diffWafRegexPatternSetPatternStrings old new,
        (u.Action = ChangeActionDelete ∧ u.RegexPatternString ∈ old ∧
            u.RegexPatternString ∉ new) ∨
          (u.Action = ChangeActionInsert ∧ u.RegexPatternString ∈ new ∧
            u.RegexPatternString ∉ old)) := by
  rw [diff_eq_of_nodup old new ho hn]
  refine ⟨?_, ?_, ?_⟩
  · intro s
    rw [List.count_append, count_map_delete, count_delete_in_inserts, count_filter_nodup _ _ _ ho]
    simp
  · intro s
    rw [List.count_append, count_map_insert, count_insert_in_deletes, count_filter_nodup _ _ _ hn]
    simp
  · intro u hu
    rcases List.mem_append.1 hu with h | h
    · rcases List.mem_map.1 h with ⟨x, hx, rfl⟩
      left
      simpa [List.mem_filter] using hx
    · rcases List.mem_map.1 h with ⟨x, hx, rfl⟩
      right
      simpa [List.mem_filter] using hx

/-- Witness of C1 at old = [a, b, c], new = [b, d]. -/
theorem diff_exact_operations_witness :
    (∀ s, (diffWafRegexPatternSetPatternStrings ["a", "b", "c"] ["b", "d"]).count
        { Action := ChangeActionDelete, RegexPatternString := s } =
          if s ∈ ["a", "b", "c"] ∧ s ∉ ["b", "d"] then 1 else 0) ∧
    (∀ s, (diffWafRegexPatternSetPatternStrings ["a", "b", "c"] ["b", "d"]).count
        { Action := ChangeActionInsert, RegexPatternString := s } =
          if s ∈ ["b", "d"] ∧ s ∉ ["a", "b", "c"] then 1 else 0) ∧
    (∀ u ∈ diffWafRegexPatternSetPatternStrings ["a", "b", "c"] ["b", "d"],
        (u.Action = ChangeActionDelete ∧ u.RegexPatternString ∈ ["a", "b", "c"] ∧
            u.RegexPatternString ∉ ["b", "d"]) ∨
          (u.Action = ChangeActionInsert ∧ u.RegexPatternString ∈ ["b", "d"] ∧
            u.RegexPatternString ∉ ["a", "b", "c"])) :=
  diff_exact_operations ["a", "b", "c"] ["b", "d"] (by decide) (by decide)

theorem deletedStrings_perm :
    ∀ (old w : List String), old.Perm w → deletedStrings old w = [] ∧ w.diff old = []
  | [], w, h => by
    have hw : w = [] := List.Perm.eq_nil h.symm
    subst hw
    simp [deletedStrings]
  | op :: rest, w, h => by
    have hm : op ∈ w := h.subset (List.mem_cons_self op rest)
    have h1 : rest.Perm (w.erase op) :=
      List.Perm.cons_inv (h.trans (List.perm_cons_erase hm))
    have ih := deletedStrings_perm rest (w.erase op) h1
    simp [deletedStrings, hm, ih.1, ih.2]

/-- C3: the diff of a set against itself is empty: whenever `S2` lists the same strings as `S`
in any order, `diffWafRegexPatternSetPatternStrings S S2` returns no operation. The strings
need not even be distinct, so the duplicate-free case of two listings of one set is covered. -/
theorem diff_self_empty (S S2 : List String) (hperm : S.Perm S2) :
    diffWafRegexPatternSetPatternStrings S S2 = [] := by
  have h := deletedStrings_perm S S2 hperm
  rw [diff_eq, h.1, h.2]
  rfl

/-- Witness of C3 at S = [a, b, c] listed as [c, a, b]. -/
theorem diff_self_empty_witness :
    diffWafRegexPatternSetPatternStrings ["a", "b", "c"] ["c", "a", "b"] = [] :=
  diff_self_empty ["a", "b", "c"] ["c", "a", "b"] (by decide)

theorem deletedStrings_nil_right : ∀ (old : List String), deletedStrings old [] = old
  | [] => rfl
  | op :: rest => by simp [deletedStrings, deletedStrings_nil_right rest]

/-- C4: against an empty old list the diff is one Insert per element of `S`, in the order of
`S`; against an empty new list it is one Delete per element of `S`, in the order of `S`; both
results have the length of `S`. -/
theorem diff_empty_sides (S : List String) :
    diffWafRegexPatternSetPatternStrings [] S =
        S.map (fun s => { Action := ChangeActionInsert, RegexPatternString := s }) ∧
      diffWafRegexPatternSetPatternStrings S [] =
        S.map (fun s => { Action := ChangeActionDelete, RegexPatternString := s }) ∧
      (diffWafRegexPatternSetPatternStrings [] S).length = S.length ∧
      (diffWafRegexPatternSetPatternStrings S []).length = S.length := by
  have h1 : diffWafRegexPatternSetPatternStrings [] S =
      S.map (fun s => { Action := ChangeActionInsert, RegexPatternString := s }) := by
    rw [diff_eq]
    simp [deletedStrings]
  have h2 : diffWafRegexPatternSetPatternStrings S [] =
      S.map (fun s => { Action := ChangeActionDelete, RegexPatternString := s }) := by
    rw [diff_eq, deletedStrings_nil_right]
    simp
  refine ⟨h1, h2, ?_, ?_⟩
  · rw [h1, List.length_map]
  · rw [h2, List.length_map]

theorem applyUpdates_deletes :
    ∀ (ds : List String) (set : Finset String) (us : List RegexPatternSetUpdate),
      ds.Nodup → (∀ x ∈ ds, x ∈ set) →
      applyUpdates set
          (ds.map (fun s => { Action := ChangeActionDelete, RegexPatternString := s }) ++ us) =
        applyUpdates (set \ ds.toFinset) us
  | [], set, us, _, _ => by simp
  | d :: ds, set, us, hnd, hmem => by
    have hd : d ∈ set := hmem d (List.mem_cons_self d ds)
    have hnd2 : ds.Nodup := (List.nodup_cons.1 hnd).2
    have hnot : d ∉ ds := (List.nodup_cons.1 hnd).1
    have hmem2 : ∀ x ∈ ds, x ∈ set.erase d := by
      intro x hx
      have hne : x ≠ d := fun h1 => hnot (h1 ▸ hx)
      exact Finset.mem_erase.2 ⟨hne, hmem x (List.mem_cons_of_mem _ hx)⟩
    have ih := applyUpdates_deletes ds (set.erase d) us hnd2 hmem2
    have hset : set.erase d \ ds.toFinset = set \ (d :: ds).toFinset := by
      ext x
      simp only [Finset.mem_sdiff, Finset.mem_erase, List.toFinset_cons, Finset.mem_insert,
        List.mem_toFinset]
      tauto
    simp only [List.map_cons, List.cons_append, applyUpdates, applyUpdate, if_true, hd,
      Option.some_bind]
    rw [← hset, ← ih]
    rfl

theorem applyUpdates_inserts :
    ∀ (is : List String) (set : Finset String),
      is.Nodup → (∀ x ∈ is, x ∉ set) →
      applyUpdates set
          (is.map (fun s => { Action := ChangeActionInsert, RegexPatternString := s })) =
        some (set ∪ is.toFinset)
  | [], set, _, _ => by simp [applyUpdates]
  | a :: is, set, hnd, hmem => by
    have ha : a ∉ set := hmem a (List.mem_cons_self a is)
    have hnd2 : is.Nodup := (List.nodup_cons.1 hnd).2
    have hnot : a ∉ is := (List.nodup_cons.1 hnd).1
    have hmem2 : ∀ x ∈ is, x ∉ insert a set := by
      intro x hx h1
      rcases Finset.mem_insert.1 h1 with h2 | h2
      · exact hnot (h2 ▸ hx)
      · exact hmem x (List.mem_cons_of_mem _ hx) h2
    have ih := applyUpdates_inserts is (insert a set) hnd2 hmem2
    have hact : ¬ ChangeActionInsert = ChangeActionDelete := by decide
    have hset : insert a set ∪ is.toFinset = set ∪ (a :: is).toFinset := by
      ext x
      simp only [Finset.mem_union, Finset.mem_insert, List.toFinset_cons, List.mem_toFinset]
      tauto
    simp only [List.map_cons, applyUpdates, applyUpdate, hact, if_false, if_true, ha,
      Option.some_bind, ih, hset]

/-- C9: for duplicate-free `old` and `new`, applying the operations of the diff in order to the
set of `old` never fails (each Delete finds its string present, each Insert finds its string
absent) and ends in the set of `new`. -/
theorem diff_applies_to_new (old new : List String) (ho : old.Nodup) (hn : new.Nodup) :
    applyUpdates old.toFinset (diffWafRegexPatternSetPatternStrings old new) =
      some new.toFinset := by
  rw [diff_eq_of_nodup old new ho hn]
  rw [applyUpdates_deletes _ _ _ (ho.filter _) (by
    intro x hx
    exact List.mem_toFinset.2 (List.mem_of_mem_filter hx))]
  rw [applyUpdates_inserts _ _ (hn.filter _) (by
    intro x hx
    have h1 := List.mem_filter.1 hx
    simp only [Finset.mem_sdiff, List.mem_toFinset, not_and]
    intro h2
    exact absurd h2 (by simpa using h1.2))]
  have hset : old.toFinset \ (old.filter (fun s => s ∉ new)).toFinset ∪
      (new.filter (fun s => s ∉ old)).toFinset = new.toFinset := by
    ext x
    simp only [Finset.mem_union, Finset.mem_sdiff, List.mem_toFinset, List.mem_filter,
      decide_eq_true_eq, decide_not, Bool.not_eq_true', decide_eq_false_iff_not]
    tauto
  rw [hset]

/-- Witness of C9 at old = [a, b, c], new = [b, d]. -/
theorem diff_applies_to_new_witness :
    applyUpdates (["a", "b", "c"] : List String).toFinset
        (diffWafRegexPatternSetPatternStrings ["a", "b", "c"] ["b", "d"]) =
      some (["b", "d"] : List String).toFinset :=
  diff_applies_to_new ["a", "b", "c"] ["b", "d"] (by decide) (by decide)

theorem deletesBeforeInserts_append (ds is : List String)
    (hd : ∀ a ∈ ds, a = ChangeActionDelete) (hi : ∀ a ∈ is, a = ChangeActionInsert) :
    DeletesBeforeInserts (ds ++ is) := by
  intro i j hi' hj' hdel hins
  have hne : ChangeActionDelete ≠ ChangeActionInsert := by decide
  by_cases hj : j < ds.length
  · exfalso
    rw [List.getElem_append_left hj] at hins
    exact hne ((hd _ (List.getElem_mem hj)).symm.trans hins)
  · by_cases hi2 : i < ds.length
    · omega
    · exfalso
      have hle : ds.length ≤ i := Nat.le_of_not_lt hi2
      rw [List.getElem_append_right hle] at hdel
      exact hne (hdel.symm.trans (hi _ (List.getElem_mem _)))

theorem byteLoop_shape (h : Helpers) :
    ∀ (old : List Tuple) (newT : Slice Tuple) (upd out : List ByteMatchSetUpdate)
      (left : Slice Tuple),
      diffWafByteMatchSetTuplesLoop h old newT upd = some (out, left) →
      ∃ ds : List ByteMatchSetUpdate,
        out = upd ++ ds ∧ ∀ u ∈ ds, u.Action = ChangeActionDelete
  | [], newT, upd, out, left, hrun => by
    simp only [diffWafByteMatchSetTuplesLoop, Option.some.injEq, Prod.mk.injEq] at hrun
    exact ⟨[], by simp [hrun.1], by simp⟩
  | tuple :: rest, newT, upd, out, left, hrun => by
    unfold diffWafByteMatchSetTuplesLoop at hrun
    split at hrun
    · split at hrun
      · exact byteLoop_shape h rest _ upd out left hrun
      · exact absurd hrun (by simp)
    · split at hrun
      · exact absurd hrun (by simp)
      · rename_i t _
        rcases byteLoop_shape h rest _ _ out left hrun with ⟨ds, h1, h2⟩
        refine ⟨{ Action := ChangeActionDelete, ByteMatchTuple := t } :: ds, ?_, ?_⟩
        · simp [h1]
        · intro u hu
          rcases List.mem_cons.1 hu with h3 | h3
          · rw [h3]
          · exact h2 u h3

theorem byteInserts_shape (h : Helpers) :
    ∀ (l : List Tuple) (upd out : List ByteMatchSetUpdate),
      diffWafByteMatchSetTuplesInserts h l upd = some out →
      ∃ is : List ByteMatchSetUpdate,
        out = upd ++ is ∧ ∀ u ∈ is, u.Action = ChangeActionInsert
  | [], upd, out, hrun => by
    simp only [diffWafByteMatchSetTuplesInserts, Option.some.injEq] at hrun
    exact ⟨[], by simp [hrun], by simp⟩
  | tuple :: rest, upd, out, hrun => by
    unfold diffWafByteMatchSetTuplesInserts at hrun
    split at hrun
    · exact absurd hrun (by simp)
    · rename_i t _
      rcases byteInserts_shape h rest _ out hrun with ⟨is, h1, h2⟩
      refine ⟨{ Action := ChangeActionInsert, ByteMatchTuple := t } :: is, ?_, ?_⟩
      · simp [h1]
      · intro u hu
        rcases List.mem_cons.1 hu with h3 | h3
        · rw [h3]
        · exact h2 u h3

/-- Shape of every result of the match set diff: Deletes, then Inserts. -/
theorem byteDiff_shape (h : Helpers) (oldT newT : List Tuple) (out : List ByteMatchSetUpdate)
    (hout : diffWafByteMatchSetTuples h oldT newT = some out) :
    ∃ ds is : List ByteMatchSetUpdate, out = ds ++ is ∧
      (∀ u ∈ ds, u.Action = ChangeActionDelete) ∧ (∀ u ∈ is, u.Action = ChangeActionInsert) := by
  unfold diffWafByteMatchSetTuples diffWafByteMatchSetTuplesRun at hout
  split at hout
  · exact absurd hout (by simp)
  · rename_i updates left hloop
    split at hout
    · exact absurd hout (by simp)
    · rename_i out2 hins
      simp only [Option.map_some', Option.some.injEq] at hout
      subst hout
      rcases byteLoop_shape h oldT _ _ _ _ hloop with ⟨ds, h1, h2⟩
      rcases byteInserts_shape h _ _ _ hins with ⟨is, h3, h4⟩
      refine ⟨ds, is, ?_, h2, h4⟩
      rw [h3, h1]
      rfl

/-- C2: in the list returned by `diffWafRegexPatternSetPatternStrings`, and in every list
returned by `diffWafByteMatchSetTuples`, each operation whose Action is DELETE stands at a
smaller index than each operation whose Action is INSERT; the output is a block of Deletes
followed by a block of Inserts. -/
theorem diff_deletes_precede_inserts (old new : List String) (h : Helpers)
    (oldT newT : List Tuple) (out : List ByteMatchSetUpdate)
    (hout : diffWafByteMatchSetTuples h oldT newT = some out) :
    DeletesBeforeInserts ((diffWafRegexPatternSetPatternStrings old new).map (fun u => u.Action)) ∧
    (∃ ds is, diffWafRegexPatternSetPatternStrings old new = ds ++ is ∧
      (∀ u ∈ ds, u.Action = ChangeActionDelete) ∧ (∀ u ∈ is, u.Action = ChangeActionInsert)) ∧
    DeletesBeforeInserts (out.map (fun u => u.Action)) ∧
    (∃ ds is, out = ds ++ is ∧
      (∀ u ∈ ds, u.Action = ChangeActionDelete) ∧ (∀ u ∈ is, u.Action = ChangeActionInsert)) := by
  have hp : ∃ ds is, diffWafRegexPatternSetPatternStrings old new = ds ++ is ∧
      (∀ u ∈ ds, u.Action = ChangeActionDelete) ∧ (∀ u ∈ is, u.Action = ChangeActionInsert) := by
    refine ⟨_, _, diff_eq old new, ?_, ?_⟩
    · intro u hu
      rcases List.mem_map.1 hu with ⟨x, _, rfl⟩
      rfl
    · intro u hu
      rcases List.mem_map.1 hu with ⟨x, _, rfl⟩
      rfl
  have hb := byteDiff_shape h oldT newT out hout
  refine ⟨?_, hp, ?_, hb⟩
  · rcases hp with ⟨ds, is, h1, h2, h3⟩
    rw [h1, List.map_append]
    apply deletesBeforeInserts_append
    · intro a ha
      rcases List.mem_map.1 ha with ⟨u, hu, rfl⟩
      exact h2 u hu
    · intro a ha
      rcases List.mem_map.1 ha with ⟨u, hu, rfl⟩
      exact h3 u hu
  · rcases hb with ⟨ds, is, h1, h2, h3⟩
    rw [h1, List.map_append]
    apply deletesBeforeInserts_append
    · intro a ha
      rcases List.mem_map.1 ha with ⟨u, hu, rfl⟩
      exact h2 u hu
    · intro a ha
      rcases List.mem_map.1 ha with ⟨u, hu, rfl⟩
      exact h3 u hu

/-- Witness of C2: a run of the match set diff that returns a Delete and an Insert. -/
theorem diff_deletes_precede_inserts_witness :
    diffWafByteMatchSetTuples sampleHelpers
        [sampleByteMatchTuple "a", sampleByteMatchTuple "b"]
        [sampleByteMatchTuple "b", sampleByteMatchTuple "c"] = some sampleByteDiff ∧
    DeletesBeforeInserts
      ((diffWafRegexPatternSetPatternStrings ["a", "b"] ["b", "c"]).map (fun u => u.Action)) ∧
    DeletesBeforeInserts (sampleByteDiff.map (fun u => u.Action)) :=
  ⟨by decide,
   (diff_deletes_precede_inserts ["a", "b"] ["b", "c"] sampleHelpers
      [sampleByteMatchTuple "a", sampleByteMatchTuple "b"]
      [sampleByteMatchTuple "b", sampleByteMatchTuple "c"] sampleByteDiff (by decide)).1,
   (diff_deletes_precede_inserts ["a", "b"] ["b", "c"] sampleHelpers
      [sampleByteMatchTuple "a", sampleByteMatchTuple "b"]
      [sampleByteMatchTuple "b", sampleByteMatchTuple "c"] sampleByteDiff (by decide)).2.2.1⟩

theorem lookup_eq_none_of_keys (k : String) :
    ∀ (l : Tuple), (∀ kv ∈ l, kv.1 ≠ k) → l.lookup k = none
  | [], _ => rfl
  | (k1, v1) :: rest, h => by
    have h1 : k1 ≠ k := h (k1, v1) (List.mem_cons_self _ _)
    have h2 : ¬ (k == k1) = true := by
      simp only [beq_iff_eq]
      exact fun h3 => h1 h3.symm
    simp only [List.lookup, h2]
    exact lookup_eq_none_of_keys k rest (fun kv hkv => h kv (List.mem_cons_of_mem _ hkv))

theorem byteMatchTupleOf_of_conforms (h : Helpers) (tuple : Tuple)
    (hc : conformsToSchema tuple = true) : byteMatchTupleOf h tuple = none := by
  have hkeys : ∀ kv ∈ tuple, kv.1 ≠ "positional_constraint" := by
    simp only [conformsToSchema, Bool.and_eq_true, List.all_eq_true, Bool.or_eq_true,
      beq_iff_eq] at hc
    intro kv hkv hk
    rcases hc.1.1.1 kv hkv with (h1 | h1) | h1 <;> rw [hk] at h1 <;> exact absurd h1 (by decide)
  have hpc : tuple.getString "positional_constraint" = none := by
    simp [Tuple.getString, lookup_eq_none_of_keys _ tuple hkeys]
  unfold byteMatchTupleOf
  cases tuple.fieldToMatch with
  | none => rfl
  | some m =>
    cases hx : h.expandFieldToMatch m with
    | none => simp [hx]
    | some ftm => simp [hx, hpc]

/-- No change operation is ever built from tuples that conform to the declared schema: a run of
`diffWafByteMatchSetTuples` on such tuples that returns, returns the empty list. -/
theorem byteDiff_of_conforms (h : Helpers) (oldT newT : List Tuple)
    (out : List ByteMatchSetUpdate)
    (hold : ∀ t ∈ oldT, conformsToSchema t = true) (hnew : ∀ t ∈ newT, conformsToSchema t = true)
    (hout : diffWafByteMatchSetTuples h oldT newT = some out) : out = [] := by
  have hloop : ∀ (old : List Tuple) (nt : Slice Tuple) (upd o : List ByteMatchSetUpdate)
      (left : Slice Tuple), (∀ t ∈ old, conformsToSchema t = true) →
      diffWafByteMatchSetTuplesLoop h old nt upd = some (o, left) →
      o = upd ∧ ∀ t ∈ left.vis, t ∈ nt.vis := by
    intro old
    induction old with
    | nil =>
      intro nt upd o left _ hrun
      simp only [diffWafByteMatchSetTuplesLoop, Option.some.injEq, Prod.mk.injEq] at hrun
      exact ⟨hrun.1.symm, by rw [hrun.2]; exact fun t ht => ht⟩
    | cons tuple rest ih =>
      intro nt upd o left hc hrun
      unfold diffWafByteMatchSetTuplesLoop at hrun
      split at hrun
      · split at hrun
        · rcases ih _ _ _ _ (fun t ht => hc t (List.mem_cons_of_mem _ ht)) hrun with ⟨h1, h2⟩
          refine ⟨h1, fun t ht => ?_⟩
          exact List.mem_of_mem_eraseIdx (h2 t ht)
        · exact absurd hrun (by simp)
      · rw [byteMatchTupleOf_of_conforms h tuple (hc tuple (List.mem_cons_self _ _))] at hrun
        exact absurd hrun (by simp)
  unfold diffWafByteMatchSetTuples diffWafByteMatchSetTuplesRun at hout
  split at hout
  · exact absurd hout (by simp)
  · rename_i updates left hl
    rcases hloop oldT _ _ _ _ hold hl with ⟨h1, h2⟩
    subst h1
    cases hv : left.vis with
    | nil =>
      rw [hv] at hout
      simpa [diffWafByteMatchSetTuplesInserts] using hout.symm
    | cons t rest =>
      rw [hv] at hout
      have hct : conformsToSchema t = true := hnew t (h2 t (by rw [hv]; exact List.mem_cons_self _ _))
      simp [diffWafByteMatchSetTuplesInserts, byteMatchTupleOf_of_conforms h t hct] at hout

/-- C10 (fails on the code): on a tuple that conforms to the declared schema of
`regex_match_tuple`, `diffWafByteMatchSetTuples` panics both when the tuple is to be inserted
and when it is to be deleted, whatever the helper functions are: it reads the keys
`positional_constraint` and `target_string`, which the schema does not declare. -/
theorem diffWafByteMatchSetTuples_panics_on_schema_tuple (h : Helpers) :
    conformsToSchema sampleRegexMatchTuple = true ∧
    sampleRegexMatchTuple.getString "positional_constraint" = none ∧
    diffWafByteMatchSetTuples h [] [sampleRegexMatchTuple] = none ∧
    diffWafByteMatchSetTuples h [sampleRegexMatchTuple] [] = none := by
  have hc : conformsToSchema sampleRegexMatchTuple = true := by decide
  have hb := byteMatchTupleOf_of_conforms h sampleRegexMatchTuple hc
  refine ⟨hc, by decide, ?_, ?_⟩
  · simp [diffWafByteMatchSetTuples, diffWafByteMatchSetTuplesRun, diffWafByteMatchSetTuplesLoop,
      diffWafByteMatchSetTuplesInserts, hb]
  · have hl : diffWafByteMatchSetTuplesLoop h [sampleRegexMatchTuple] ⟨[], []⟩ [] = none := by
      unfold diffWafByteMatchSetTuplesLoop
      split
      · simp
      · rw [hb]
    simp [diffWafByteMatchSetTuples, diffWafByteMatchSetTuplesRun, hl]

/-! ## The retryer -/

theorem attempt_outcome {σ κ α : Type} (wr : WafRetryer σ) (f : WithTokenFunc σ κ α) (k : κ)
    (s : σ) : (wr.attempt f k s).2.1.outcome = (wr.attempt f k s).1.void := by
  unfold WafRetryer.attempt
  split
  · rfl
  · split <;> rfl

/-- Every invocation of the retryer makes at least one round, returns the result of its last
round, and keeps any property `P` of rounds that each single round has under an invariant `I`
of the captured variables. -/
theorem loop_spec {σ κ α : Type} (wr : WafRetryer σ) (f : WithTokenFunc σ κ α)
    (I : κ → Prop) (P : Attempt → Prop)
    (hstep : ∀ k s, I k → P (wr.attempt f k s).2.1 ∧ I (wr.attempt f k s).2.2.1) :
    ∀ (n : Nat) (k : κ) (s : σ) (attempts : List Attempt), I k →
      ∃ (pre : List Attempt) (a : Attempt),
        (wr.loop f n k s attempts).2.2.2 = attempts ++ pre ++ [a] ∧
        a.outcome = (wr.loop f n k s attempts).1.void ∧
        (∀ b ∈ pre ++ [a], P b) := by
  intro n
  induction n with
  | zero =>
    intro k s attempts hk
    refine ⟨[], (wr.attempt f k s).2.1, ?_, ?_, ?_⟩
    · simp [WafRetryer.loop]
    · simpa [WafRetryer.loop] using attempt_outcome wr f k s
    · intro b hb
      simp only [List.nil_append, List.mem_singleton] at hb
      rw [hb]
      exact (hstep k s hk).1
  | succ n ih =>
    intro k s attempts hk
    have hout := attempt_outcome wr f k s
    have hP := hstep k s hk
    rcases hatt : wr.attempt f k s with ⟨r, a, k1, s1⟩
    rw [hatt] at hout hP
    simp only at hout hP
    have hstop : ∃ (pre : List Attempt) (a0 : Attempt),
        ((r, k1, s1, attempts ++ [a]) : Outcome α × κ × σ × List Attempt).2.2.2 =
          attempts ++ pre ++ [a0] ∧
        a0.outcome = ((r, k1, s1, attempts ++ [a]) : Outcome α × κ × σ × List Attempt).1.void ∧
        (∀ b ∈ pre ++ [a0], P b) := by
      refine ⟨[], a, by simp, hout, ?_⟩
      intro b hb
      simp only [List.nil_append, List.mem_singleton] at hb
      rw [hb]
      exact hP.1
    cases r with
    | ok v => simpa [WafRetryer.loop, hatt] using hstop
    | panic => simpa [WafRetryer.loop, hatt] using hstop
    | error e =>
      by_cases hr : wr.retryable e = true
      · rcases ih k1 s1 (attempts ++ [a]) hP.2 with ⟨pre, a0, h1, h2, h3⟩
        refine ⟨a :: pre, a0, ?_, ?_, ?_⟩
        · simp only [WafRetryer.loop, hatt, hr, if_true]
          rw [h1]
          simp
        · simp only [WafRetryer.loop, hatt, hr, if_true]
          exact h2
        · intro b hb
          have hb2 : b = a ∨ b ∈ pre ++ [a0] := by simpa using hb
          rcases hb2 with h4 | h4
          · rw [h4]; exact hP.1
          · exact h3 b h4
      · simpa [WafRetryer.loop, hatt, hr] using hstop

theorem retry_spec {σ κ α : Type} (wr : WafRetryer σ) (f : WithTokenFunc σ κ α)
    (I : κ → Prop) (P : Attempt → Prop)
    (hstep : ∀ k s, I k → P (wr.attempt f k s).2.1 ∧ I (wr.attempt f k s).2.2.1)
    (k : κ) (s : σ) (hk : I k) :
    ∃ a : Attempt, (wr.RetryWithToken f k s).2.2.2.getLast? = some a ∧
      a.outcome = (wr.RetryWithToken f k s).1.void ∧
      ∀ b ∈ (wr.RetryWithToken f k s).2.2.2, P b := by
  rcases loop_spec wr f I P hstep wr.retries k s [] hk with ⟨pre, a, h1, h2, h3⟩
  refine ⟨a, ?_, h2, ?_⟩
  · unfold WafRetryer.RetryWithToken
    rw [h1]
    simp
  · unfold WafRetryer.RetryWithToken
    rw [h1]
    simpa using h3

theorem retry_last {σ κ α : Type} (wr : WafRetryer σ) (f : WithTokenFunc σ κ α) (k : κ)
    (s : σ) :
    ∃ a : Attempt, (wr.RetryWithToken f k s).2.2.2.getLast? = some a ∧
      a.outcome = (wr.RetryWithToken f k s).1.void := by
  rcases retry_spec wr f (fun _ => True) (fun _ => True) (fun _ _ _ => ⟨trivial, trivial⟩) k s
    trivial with ⟨a, h1, h2, _⟩
  exact ⟨a, h1, h2⟩

theorem void_failure {α : Type} (r : Outcome α) : r.void.failure = r.failure := by
  cases r <;> rfl

theorem retryFailure_retried {σ κ α : Type} (wr : WafRetryer σ) (f : WithTokenFunc σ κ α)
    (k : κ) (s : σ) (log : List Interaction) :
    retryFailure (log ++ [Interaction.retried (wr.RetryWithToken f k s).2.2.2]) =
      (wr.RetryWithToken f k s).1.failure := by
  rcases retry_last wr f k s with ⟨a, h1, h2⟩
  simp [retryFailure, h1, h2, void_failure]

theorem succeeded_retried {σ κ α : Type} (wr : WafRetryer σ) (f : WithTokenFunc σ κ α)
    (k : κ) (s : σ) :
    succeeded (wr.RetryWithToken f k s).2.2.2 = true ↔
      ∃ v, (wr.RetryWithToken f k s).1 = Outcome.ok v := by
  rcases retry_last wr f k s with ⟨a, h1, h2⟩
  unfold succeeded
  rw [h1]
  cases hr : (wr.RetryWithToken f k s).1 with
  | ok v =>
    rw [hr] at h2
    cases a with
    | noToken e => simp [Attempt.outcome, Outcome.void] at h2
    | panicked t => simp [Attempt.outcome, Outcome.void] at h2
    | issued c err =>
      cases err with
      | none => simp
      | some e => simp [Attempt.outcome, Outcome.void] at h2
  | error e =>
    rw [hr] at h2
    cases a with
    | noToken e => simp
    | panicked t => simp
    | issued c err =>
      cases err with
      | none => simp [Attempt.outcome, Outcome.void] at h2
      | some e => simp
  | panic =>
    rw [hr] at h2
    cases a with
    | noToken e => simp
    | panicked t => simp
    | issued c err =>
      cases err with
      | none => simp [Attempt.outcome, Outcome.void] at h2
      | some e => simp

/-! ## Read handlers -/

theorem isAWSErr_empty_message (code message code0 : String) :
    isAWSErr (GoError.aws code message) code0 "" = decide (code = code0) := by
  have h : ("" : String).data <:+: message.data := List.nil_infix
  by_cases hc : code = code0 <;> simp [isAWSErr, hc, h]

/-- C5: when the remote Get call fails with the code WAFNonexistentItemException, each of the
two Read handlers sets the resource ID to the empty string, returns no error, and leaves the
stored name and the stored patterns or tuples as they were. -/
theorem read_not_found_clears_id {σ : Type} (client : AWSClient σ)
    (dp : RegexPatternSetData) (dm : RegexMatchSetData) (s s1 t t1 : σ)
    (log : List Interaction) (mp mm : String)
    (hp : client.wafconn.GetRegexPatternSet dp.Id s =
      (Except.error (GoError.aws "WAFNonexistentItemException" mp), s1))
    (hm : client.wafconn.GetByteMatchSet dm.Id t =
      (Except.error (GoError.aws "WAFNonexistentItemException" mm), t1)) :
    (resourceAwsWafRegexPatternSetRead client dp s log).result = Outcome.ok () ∧
    (resourceAwsWafRegexPatternSetRead client dp s log).d.Id = "" ∧
    (resourceAwsWafRegexPatternSetRead client dp s log).d.name = dp.name ∧
    (resourceAwsWafRegexPatternSetRead client dp s log).d.regex_pattern_strings =
      dp.regex_pattern_strings ∧
    (resourceAwsWafRegexPatternSetRead client dp s log).d.regex_pattern_strings_prior =
      dp.regex_pattern_strings_prior ∧
    (resourceAwsWafRegexMatchSetRead client dm t log).result = Outcome.ok () ∧
    (resourceAwsWafRegexMatchSetRead client dm t log).d.Id = "" ∧
    (resourceAwsWafRegexMatchSetRead client dm t log).d.name = dm.name ∧
    (resourceAwsWafRegexMatchSetRead client dm t log).d.regex_match_tuple =
      dm.regex_match_tuple ∧
    (resourceAwsWafRegexMatchSetRead client dm t log).d.regex_match_tuple_prior =
      dm.regex_match_tuple_prior := by
  simp [resourceAwsWafRegexPatternSetRead, resourceAwsWafRegexMatchSetRead, hp, hm,
    isAWSErr_empty_message]

/-- Witness of C5: both Get calls of the sample service answer that the set does not exist. -/
theorem read_not_found_clears_id_witness :
    (resourceAwsWafRegexPatternSetRead (sampleClient (Except.error notFoundError))
        samplePatternSetData [] []).result = Outcome.ok () ∧
    (resourceAwsWafRegexPatternSetRead (sampleClient (Except.error notFoundError))
        samplePatternSetData [] []).d.Id = "" ∧
    (resourceAwsWafRegexMatchSetRead (sampleClient (Except.error notFoundError))
        sampleMatchSetData [] []).result = Outcome.ok () ∧
    (resourceAwsWafRegexMatchSetRead (sampleClient (Except.error notFoundError))
        sampleMatchSetData [] []).d.Id = "" :=
  have h := read_not_found_clears_id (sampleClient (Except.error notFoundError))
    samplePatternSetData sampleMatchSetData [] [] [] [] [] "no such set" "no such set" rfl rfl
  ⟨h.1, h.2.1, h.2.2.2.2.2.1, h.2.2.2.2.2.2.1⟩

/-! ## Errors handed on by the handlers -/

theorem append_ne_empty (c1 c2 : String) (h : c1 ≠ "") : c1 ++ c2 ≠ "" := by
  intro h1
  apply h
  have h2 := String.ext_iff.1 h1
  rw [String.data_append] at h2
  exact String.ext_iff.2 (List.append_eq_nil.1 h2).1

theorem addsContext_fmtErrorf (context : String) (e : GoError) (h : context ≠ "") :
    AddsContext (fmtErrorf context e) e := ⟨context, h, rfl⟩

theorem addsContext_errwrapWrapf (context : String) (e : GoError) (h : context ≠ "") :
    AddsContext (errwrapWrapf context e) e := ⟨context, h, rfl⟩

theorem addsContext_trans {x y e : GoError} (h1 : AddsContext x y) (h2 : AddsContext y e) :
    AddsContext x e := by
  rcases h1 with ⟨c1, hc1, he1⟩
  rcases h2 with ⟨c2, _, he2⟩
  exact ⟨c1 ++ c2, append_ne_empty c1 c2 hc1, by rw [he1, he2, String.append_assoc]⟩

theorem addsContext_ne {x e : GoError} (h : AddsContext x e) : x ≠ e := by
  rcases h with ⟨c, hc, he⟩
  intro hx
  subst hx
  apply hc
  have h2 := String.ext_iff.1 he
  rw [String.data_append] at h2
  exact String.ext_iff.2 (List.append_left_eq_self.1 h2.symm)

theorem retryFailure_direct (log : List Interaction) (c : Call) (err : Option GoError) :
    retryFailure (log ++ [Interaction.direct c err]) = none := by
  simp [retryFailure]

theorem directFailure_direct (log : List Interaction) (c : Call) (err : Option GoError) :
    directFailure (log ++ [Interaction.direct c err]) = err := by
  simp [directFailure]

theorem directFailure_retried (log : List Interaction) (attempts : List Attempt) :
    directFailure (log ++ [Interaction.retried attempts]) = none := by
  simp [directFailure]

theorem patternRead_errorsPropagate {σ : Type} (client : AWSClient σ)
    (d : RegexPatternSetData) (s : σ) (log : List Interaction) :
    ErrorsPropagate (resourceAwsWafRegexPatternSetRead client d s log) := by
  unfold resourceAwsWafRegexPatternSetRead ErrorsPropagate
  rcases hget : client.wafconn.GetRegexPatternSet d.Id s with ⟨r, s1⟩
  cases r with
  | error err =>
    cases hnf : isAWSErr err "WAFNonexistentItemException" ""
    · simp only [hnf, Bool.false_eq_true, if_false, retryFailure_direct, directFailure_direct]
      constructor
      · intro e h
        simp at h
      · intro e h1 _
        simp only [Option.some.injEq] at h1
        rw [h1]
    · simp only [hnf, if_true, retryFailure_direct, directFailure_direct]
      constructor
      · intro e h
        simp at h
      · intro e h1 h2
        simp only [Option.some.injEq] at h1
        rw [← h1, hnf] at h2
        simp at h2
  | ok resp =>
    simp only [retryFailure_direct, directFailure_direct]
    constructor <;> intro e h <;> simp at h

theorem matchRead_errorsPropagate {σ : Type} (client : AWSClient σ)
    (d : RegexMatchSetData) (s : σ) (log : List Interaction) :
    ErrorsPropagate (resourceAwsWafRegexMatchSetRead client d s log) := by
  unfold resourceAwsWafRegexMatchSetRead ErrorsPropagate
  rcases hget : client.wafconn.GetByteMatchSet d.Id s with ⟨r, s1⟩
  cases r with
  | error err =>
    cases err with
    | aws code message =>
      by_cases hnf : code = "WAFNonexistentItemException"
      · simp only [hnf, if_true, retryFailure_direct, directFailure_direct]
        constructor
        · intro e h
          simp at h
        · intro e h1 h2
          simp only [Option.some.injEq] at h1
          rw [← h1, isAWSErr_empty_message] at h2
          simp at h2
      · simp only [hnf, if_false, retryFailure_direct, directFailure_direct]
        constructor
        · intro e h
          simp at h
        · intro e h1 _
          simp only [Option.some.injEq] at h1
          rw [h1]
    | text msg =>
      simp only [retryFailure_direct, directFailure_direct]
      constructor
      · intro e h
        simp at h
      · intro e h1 _
        simp only [Option.some.injEq] at h1
        rw [h1]
    | wrapped outer inner =>
      simp only [retryFailure_direct, directFailure_direct]
      constructor
      · intro e h
        simp at h
      · intro e h1 _
        simp only [Option.some.injEq] at h1
        rw [h1]
  | ok resp =>
    cases hfl : flattenWafByteMatchTuples client.helpers resp.ByteMatchTuples with
    | none =>
      simp only [hfl, retryFailure_direct, directFailure_direct]
      constructor <;> intro e h <;> simp at h
    | some tuples =>
      simp only [hfl, retryFailure_direct, directFailure_direct]
      constructor <;> intro e h <;> simp at h

theorem updateStrings_failure {σ : Type} (id : String) (o n : List String)
    (client : AWSClient σ) (s : σ) (log : List Interaction) :
    directFailure (updateWafRegexPatternSetPatternStrings id o n client s log).2.2 = none ∧
    ∀ e, retryFailure (updateWafRegexPatternSetPatternStrings id o n client s log).2.2 = some e →
      (updateWafRegexPatternSetPatternStrings id o n client s log).1 =
        Outcome.error (fmtErrorf "Failed updating WAF Regex Pattern Set: " e) := by
  unfold updateWafRegexPatternSetPatternStrings
  have hf := retryFailure_retried (newWafRetryer client "global")
    (updateWafRegexPatternSetPatternStringsFunc client.wafconn id o) n s log
  rcases hrt : (newWafRetryer client "global").RetryWithToken
    (updateWafRegexPatternSetPatternStringsFunc client.wafconn id o) n s with ⟨r, k, s1, atts⟩
  rw [hrt] at hf
  cases r <;> simp [hf, Outcome.failure, directFailure_retried]

theorem updateTuples_failure {σ : Type} (id : String) (o n : List Tuple)
    (client : AWSClient σ) (s : σ) (log : List Interaction) :
    directFailure (updateByteMatchSetResource id o n client s log).2.2 = none ∧
    ∀ e, retryFailure (updateByteMatchSetResource id o n client s log).2.2 = some e →
      (updateByteMatchSetResource id o n client s log).1 =
        Outcome.error (errwrapWrapf "[ERROR] Error updating ByteMatchSet: " e) := by
  unfold updateByteMatchSetResource
  have hf := retryFailure_retried (newWafRetryer client "global")
    (updateByteMatchSetResourceFunc client.wafconn client.helpers id o) n s log
  rcases hrt : (newWafRetryer client "global").RetryWithToken
    (updateByteMatchSetResourceFunc client.wafconn client.helpers id o) n s with ⟨r, k, s1, atts⟩
  rw [hrt] at hf
  cases r <;> simp [hf, Outcome.failure, directFailure_retried]

theorem patternUpdate_errorsPropagate {σ : Type} (client : AWSClient σ)
    (d : RegexPatternSetData) (s : σ) (log : List Interaction) :
    ErrorsPropagate (resourceAwsWafRegexPatternSetUpdate client d s log) := by
  unfold resourceAwsWafRegexPatternSetUpdate
  cases hc : d.HasChange
  · simpa using patternRead_errorsPropagate client d s log
  · simp only [if_true]
    have hu := updateStrings_failure d.Id d.GetChange.1 d.GetChange.2 client s log
    rcases hupd : updateWafRegexPatternSetPatternStrings d.Id d.GetChange.1 d.GetChange.2
      client s log with ⟨r, s1, log1⟩
    rw [hupd] at hu
    cases r with
    | ok v => exact patternRead_errorsPropagate client d s1 log1
    | panic =>
      constructor
      · intro e he
        have h1 := hu.2 e he
        simp at h1
      · intro e he
        have h1 := hu.1
        simp only at h1 he
        rw [h1] at he
        simp at he
    | error err =>
      constructor
      · intro e he
        have h1 := hu.2 e he
        simp only [Outcome.error.injEq] at h1
        subst h1
        have hctx : AddsContext (fmtErrorf "Failed updating WAF Regex Pattern Set: "
            (fmtErrorf "Failed updating WAF Regex Pattern Set: " e)) e :=
          addsContext_trans (addsContext_fmtErrorf _ _ (by decide))
            (addsContext_fmtErrorf _ _ (by decide))
        exact ⟨_, rfl, hctx, addsContext_ne hctx⟩
      · intro e he
        have h1 := hu.1
        simp only at h1 he
        rw [h1] at he
        simp at he

theorem patternCreate_errorsPropagate {σ : Type} (client : AWSClient σ)
    (d : RegexPatternSetData) (s : σ) (log : List Interaction) :
    ErrorsPropagate (resourceAwsWafRegexPatternSetCreate client d s log) := by
  unfold resourceAwsWafRegexPatternSetCreate
  have hf := retryFailure_retried (newWafRetryer client "global")
    (createRegexPatternSetFunc client.wafconn d.name) () s log
  rcases hrt : (newWafRetryer client "global").RetryWithToken
    (createRegexPatternSetFunc client.wafconn d.name) () s with ⟨r, k, s1, atts⟩
  rw [hrt] at hf
  cases r with
  | ok resp => exact patternUpdate_errorsPropagate client _ s1 _
  | panic =>
    constructor
    · intro e he
      simp only at he hf
      rw [hf] at he
      simp [Outcome.failure] at he
    · intro e he
      simp only [directFailure_retried] at he
      simp at he
  | error err =>
    constructor
    · intro e he
      simp only at he hf
      rw [hf] at he
      simp only [Outcome.failure, Option.some.injEq] at he
      subst he
      have hctx : AddsContext (fmtErrorf "Failed creating WAF Regex Pattern Set: " err) err :=
        addsContext_fmtErrorf _ _ (by decide)
      exact ⟨_, rfl, hctx, addsContext_ne hctx⟩
    · intro e he
      simp only [directFailure_retried] at he
      simp at he

theorem patternDeleteSet_errorsPropagate {σ : Type} (client : AWSClient σ)
    (d : RegexPatternSetData) (s : σ) (log : List Interaction) :
    ErrorsPropagate (resourceAwsWafRegexPatternSetDeleteSet client d s log) := by
  unfold resourceAwsWafRegexPatternSetDeleteSet
  have hf := retryFailure_retried (newWafRetryer client "global")
    (deleteRegexPatternSetFunc client.wafconn d.Id) () s log
  rcases hrt : (newWafRetryer client "global").RetryWithToken
    (deleteRegexPatternSetFunc client.wafconn d.Id) () s with ⟨r, k, s1, atts⟩
  rw [hrt] at hf
  cases r with
  | ok resp =>
    constructor
    · intro e he
      simp only at he hf
      rw [hf] at he
      simp [Outcome.failure] at he
    · intro e he
      simp only [directFailure_retried] at he
      simp at he
  | panic =>
    constructor
    · intro e he
      simp only at he hf
      rw [hf] at he
      simp [Outcome.failure] at he
    · intro e he
      simp only [directFailure_retried] at he
      simp at he
  | error err =>
    constructor
    · intro e he
      simp only at he hf
      rw [hf] at he
      simp only [Outcome.failure, Option.some.injEq] at he
      subst he
      have hctx : AddsContext (fmtErrorf "Failed deleting WAF Regex Pattern Set: " err) err :=
        addsContext_fmtErrorf _ _ (by decide)
      exact ⟨_, rfl, hctx, addsContext_ne hctx⟩
    · intro e he
      simp only [directFailure_retried] at he
      simp at he

theorem patternDelete_errorsPropagate {σ : Type} (client : AWSClient σ)
    (d : RegexPatternSetData) (s : σ) (log : List Interaction) :
    ErrorsPropagate (resourceAwsWafRegexPatternSetDelete client d s log) := by
  unfold resourceAwsWafRegexPatternSetDelete
  by_cases hc : d.regex_pattern_strings.length > 0
  · simp only [hc, if_true]
    have hu := updateStrings_failure d.Id d.regex_pattern_strings [] client s log
    rcases hupd : updateWafRegexPatternSetPatternStrings d.Id d.regex_pattern_strings []
      client s log with ⟨r, s1, log1⟩
    rw [hupd] at hu
    cases r with
    | ok v => exact patternDeleteSet_errorsPropagate client d s1 log1
    | panic =>
      constructor
      · intro e he
        have h1 := hu.2 e he
        simp at h1
      · intro e he
        have h1 := hu.1
        simp only at h1 he
        rw [h1] at he
        simp at he
    | error err =>
      constructor
      · intro e he
        have h1 := hu.2 e he
        simp only [Outcome.error.injEq] at h1
        subst h1
        have hctx : AddsContext (fmtErrorf "Error updating Regex Pattern Set: "
            (fmtErrorf "Failed updating WAF Regex Pattern Set: " e)) e :=
          addsContext_trans (addsContext_fmtErrorf _ _ (by decide))
            (addsContext_fmtErrorf _ _ (by decide))
        exact ⟨_, rfl, hctx, addsContext_ne hctx⟩
      · intro e he
        have h1 := hu.1
        simp only at h1 he
        rw [h1] at he
        simp at he
  · simp only [hc, if_false]
    exact patternDeleteSet_errorsPropagate client d s log

theorem matchUpdate_errorsPropagate {σ : Type} (client : AWSClient σ)
    (d : RegexMatchSetData) (s : σ) (log : List Interaction) :
    ErrorsPropagate (resourceAwsWafRegexMatchSetUpdate client d s log) := by
  unfold resourceAwsWafRegexMatchSetUpdate
  cases hc : d.HasChange
  · simpa using matchRead_errorsPropagate client d s log
  · simp only [if_true]
    have hu := updateTuples_failure d.Id d.GetChange.1 d.GetChange.2 client s log
    rcases hupd : updateByteMatchSetResource d.Id d.GetChange.1 d.GetChange.2
      client s log with ⟨r, s1, log1⟩
    rw [hupd] at hu
    cases r with
    | ok v => exact matchRead_errorsPropagate client d s1 log1
    | panic =>
      constructor
      · intro e he
        have h1 := hu.2 e he
        simp at h1
      · intro e he
        have h1 := hu.1
        simp only at h1 he
        rw [h1] at he
        simp at he
    | error err =>
      constructor
      · intro e he
        have h1 := hu.2 e he
        simp only [Outcome.error.injEq] at h1
        subst h1
        have hctx : AddsContext (errwrapWrapf "[ERROR] Error updating ByteMatchSet: "
            (errwrapWrapf "[ERROR] Error updating ByteMatchSet: " e)) e :=
          addsContext_trans (addsContext_errwrapWrapf _ _ (by decide))
            (addsContext_errwrapWrapf _ _ (by decide))
        exact ⟨_, rfl, hctx, addsContext_ne hctx⟩
      · intro e he
        have h1 := hu.1
        simp only at h1 he
        rw [h1] at he
        simp at he

theorem matchCreate_errorsPropagate {σ : Type} (client : AWSClient σ)
    (d : RegexMatchSetData) (s : σ) (log : List Interaction) :
    ErrorsPropagate (resourceAwsWafRegexMatchSetCreate client d s log) := by
  unfold resourceAwsWafRegexMatchSetCreate
  have hf := retryFailure_retried (newWafRetryer client "global")
    (createByteMatchSetFunc client.wafconn d.name) () s log
  rcases hrt : (newWafRetryer client "global").RetryWithToken
    (createByteMatchSetFunc client.wafconn d.name) () s with ⟨r, k, s1, atts⟩
  rw [hrt] at hf
  cases r with
  | ok resp => exact matchUpdate_errorsPropagate client _ s1 _
  | panic =>
    constructor
    · intro e he
      simp only at he hf
      rw [hf] at he
      simp [Outcome.failure] at he
    · intro e he
      simp only [directFailure_retried] at he
      simp at he
  | error err =>
    constructor
    · intro e he
      simp only at he hf
      rw [hf] at he
      simp only [Outcome.failure, Option.some.injEq] at he
      subst he
      have hctx : AddsContext (errwrapWrapf "[ERROR] Error creating ByteMatchSet: " err) err :=
        addsContext_errwrapWrapf _ _ (by decide)
      exact ⟨_, rfl, hctx, addsContext_ne hctx⟩
    · intro e he
      simp only [directFailure_retried] at he
      simp at he

theorem matchDeleteSet_errorsPropagate {σ : Type} (client : AWSClient σ)
    (d : RegexMatchSetData) (s : σ) (log : List Interaction) :
    ErrorsPropagate (resourceAwsWafRegexMatchSetDeleteSet client d s log) := by
  unfold resourceAwsWafRegexMatchSetDeleteSet
  have hf := retryFailure_retried (newWafRetryer client "global")
    (deleteByteMatchSetFunc client.wafconn d.Id) () s log
  rcases hrt : (newWafRetryer client "global").RetryWithToken
    (deleteByteMatchSetFunc client.wafconn d.Id) () s with ⟨r, k, s1, atts⟩
  rw [hrt] at hf
  cases r with
  | ok resp =>
    constructor
    · intro e he
      simp only at he hf
      rw [hf] at he
      simp [Outcome.failure] at he
    · intro e he
      simp only [directFailure_retried] at he
      simp at he
  | panic =>
    constructor
    · intro e he
      simp only at he hf
      rw [hf] at he
      simp [Outcome.failure] at he
    · intro e he
      simp only [directFailure_retried] at he
      simp at he
  | error err =>
    constructor
    · intro e he
      simp only at he hf
      rw [hf] at he
      simp only [Outcome.failure, Option.some.injEq] at he
      subst he
      have hctx : AddsContext (errwrapWrapf "[ERROR] Error deleting ByteMatchSet: " err) err :=
        addsContext_errwrapWrapf _ _ (by decide)
      exact ⟨_, rfl, hctx, addsContext_ne hctx⟩
    · intro e he
      simp only [directFailure_retried] at he
      simp at he

theorem matchDelete_errorsPropagate {σ : Type} (client : AWSClient σ)
    (d : RegexMatchSetData) (s : σ) (log : List Interaction) :
    ErrorsPropagate (resourceAwsWafRegexMatchSetDelete client d s log) := by
  unfold resourceAwsWafRegexMatchSetDelete
  by_cases hc : d.regex_match_tuple.length > 0
  · simp only [hc, if_true]
    have hu := updateTuples_failure d.Id d.regex_match_tuple [] client s log
    rcases hupd : updateByteMatchSetResource d.Id d.regex_match_tuple []
      client s log with ⟨r, s1, log1⟩
    rw [hupd] at hu
    cases r with
    | ok v => exact matchDeleteSet_errorsPropagate client d s1 log1
    | panic =>
      constructor
      · intro e he
        have h1 := hu.2 e he
        simp at h1
      · intro e he
        have h1 := hu.1
        simp only at h1 he
        rw [h1] at he
        simp at he
    | error err =>
      constructor
      · intro e he
        have h1 := hu.2 e he
        simp only [Outcome.error.injEq] at h1
        subst h1
        have hctx : AddsContext (fmtErrorf "Error updating ByteMatchSet: "
            (errwrapWrapf "[ERROR] Error updating ByteMatchSet: " e)) e :=
          addsContext_trans (addsContext_fmtErrorf _ _ (by decide))
            (addsContext_errwrapWrapf _ _ (by decide))
        exact ⟨_, rfl, hctx, addsContext_ne hctx⟩
      · intro e he
        have h1 := hu.1
        simp only at h1 he
        rw [h1] at he
        simp at he
  · simp only [hc, if_false]
    exact matchDeleteSet_errorsPropagate client d s log

/-- C6 as stated fails on the Read handlers: a Get call that fails with an error other than
not-found makes each Read handler return that very error, with no context added. -/
theorem read_returns_bare_remote_error :
    isAWSErr internalError "WAFNonexistentItemException" "" = false ∧
    (resourceAwsWafRegexPatternSetRead (sampleClient (Except.error internalError))
        samplePatternSetData [] []).log =
      [Interaction.direct (Call.GetRegexPatternSet "id") (some internalError)] ∧
    (resourceAwsWafRegexPatternSetRead (sampleClient (Except.error internalError))
        samplePatternSetData [] []).result = Outcome.error internalError ∧
    (resourceAwsWafRegexMatchSetRead (sampleClient (Except.error internalError))
        sampleMatchSetData [] []).log =
      [Interaction.direct (Call.GetByteMatchSet "id") (some internalError)] ∧
    (resourceAwsWafRegexMatchSetRead (sampleClient (Except.error internalError))
        sampleMatchSetData [] []).result = Outcome.error internalError ∧
    ¬ AddsContext internalError internalError :=
  ⟨by decide, by decide, by decide, by decide, by decide, fun h => addsContext_ne h rfl⟩

/-- C6 (amended): for Create, Update and Delete of both resources, when the handler ends on an
invocation of the retryer that gave up with the remote error `e` (the token fetch or the
create, update or delete-set call failed with it), the handler returns an error that is not `e`
and whose text is a non-empty context followed by the text of `e`. The error of a Get call
other than not-found is returned as it is, by the Read handlers and by the Create and Update
handlers, which end on a Read. -/
theorem handlers_errors_propagate {σ : Type} (client : AWSClient σ)
    (dp : RegexPatternSetData) (dm : RegexMatchSetData) (s : σ) (log : List Interaction) :
    ErrorsPropagate (resourceAwsWafRegexPatternSetCreate client dp s log) ∧
    ErrorsPropagate (resourceAwsWafRegexPatternSetRead client dp s log) ∧
    ErrorsPropagate (resourceAwsWafRegexPatternSetUpdate client dp s log) ∧
    ErrorsPropagate (resourceAwsWafRegexPatternSetDelete client dp s log) ∧
    ErrorsPropagate (resourceAwsWafRegexMatchSetCreate client dm s log) ∧
    ErrorsPropagate (resourceAwsWafRegexMatchSetRead client dm s log) ∧
    ErrorsPropagate (resourceAwsWafRegexMatchSetUpdate client dm s log) ∧
    ErrorsPropagate (resourceAwsWafRegexMatchSetDelete client dm s log) :=
  ⟨patternCreate_errorsPropagate client dp s log, patternRead_errorsPropagate client dp s log,
   patternUpdate_errorsPropagate client dp s log, patternDelete_errorsPropagate client dp s log,
   matchCreate_errorsPropagate client dm s log, matchRead_errorsPropagate client dm s log,
   matchUpdate_errorsPropagate client dm s log, matchDelete_errorsPropagate client dm s log⟩

/-- Witness of C6 (amended): an update call that fails with an internal error of the service
makes the Update handler of the pattern set return that error with context. -/
theorem handlers_errors_propagate_witness :
    retryFailure (resourceAwsWafRegexPatternSetUpdate (sampleClient sampleGetOk)
        samplePatternSetData [internalError] []).log = some internalError ∧
    ∃ x, (resourceAwsWafRegexPatternSetUpdate (sampleClient sampleGetOk)
        samplePatternSetData [internalError] []).result = Outcome.error x ∧
      AddsContext x internalError ∧ x ≠ internalError :=
  ⟨by decide,
   (handlers_errors_propagate (sampleClient sampleGetOk) samplePatternSetData
      sampleMatchSetData [internalError] []).2.2.1.1 internalError (by decide)⟩

/-! ## The Update handler of the pattern set -/

/-- When `regex_pattern_strings` has not changed, the Update handler is the Read handler: no
diff is computed, no update is issued, the only remote call is the Get of the Read, and the
result is the result of the Read. -/
theorem update_unchanged_is_read {σ : Type} (client : AWSClient σ)
    (d : RegexPatternSetData) (s : σ) (log : List Interaction)
    (hsame : ∀ x, x ∈ d.regex_pattern_strings_prior ↔ x ∈ d.regex_pattern_strings) :
    d.HasChange = false ∧
    resourceAwsWafRegexPatternSetUpdate client d s log =
      resourceAwsWafRegexPatternSetRead client d s log ∧
    ∃ err, (resourceAwsWafRegexPatternSetUpdate client d s log).log =
      log ++ [Interaction.direct (Call.GetRegexPatternSet d.Id) err] := by
  have hc : d.HasChange = false := by
    simp only [RegexPatternSetData.HasChange, setEqual, Bool.not_eq_false', Bool.and_eq_true,
      List.all_eq_true, decide_eq_true_eq]
    exact ⟨fun x hx => (hsame x).1 hx, fun x hx => (hsame x).2 hx⟩
  refine ⟨hc, by simp [resourceAwsWafRegexPatternSetUpdate, hc], ?_⟩
  simp only [resourceAwsWafRegexPatternSetUpdate, hc, Bool.false_eq_true, if_false]
  unfold resourceAwsWafRegexPatternSetRead
  rcases hget : client.wafconn.GetRegexPatternSet d.Id s with ⟨r, s1⟩
  cases r with
  | error err =>
    cases hnf : isAWSErr err "WAFNonexistentItemException" "" <;> exact ⟨some err, by simp [hnf]⟩
  | ok resp => exact ⟨none, rfl⟩

/-- C8 (fails on the code): with stored strings a, b and planned strings a, c the diff is
Delete b, Insert c, and the first round of the update carries it; when the service answers that
round with a conflict, the retryer runs the function literal again, which computes the diff
from the slice that the first round overwrote in place, and the second update call carries
Delete a, Delete b, Insert c, Insert c. -/
theorem update_retry_carries_other_diff :
    samplePatternSetData.HasChange = true ∧
    diffWafRegexPatternSetPatternStrings ["a", "b"] ["a", "c"] =
      [{ Action := "DELETE", RegexPatternString := "b" },
       { Action := "INSERT", RegexPatternString := "c" }] ∧
    diffWafRegexPatternSetPatternStringsLeaves ["a", "b"] ["a", "c"] = ["c", "c"] ∧
    (resourceAwsWafRegexPatternSetUpdate (sampleClient sampleGetOk) samplePatternSetData
        [staleError] []).log =
      [Interaction.retried
        [Attempt.issued (Call.UpdateRegexPatternSet "token" "id"
            [{ Action := "DELETE", RegexPatternString := "b" },
             { Action := "INSERT", RegexPatternString := "c" }]) (some staleError),
         Attempt.issued (Call.UpdateRegexPatternSet "token" "id"
            [{ Action := "DELETE", RegexPatternString := "a" },
             { Action := "DELETE", RegexPatternString := "b" },
             { Action := "INSERT", RegexPatternString := "c" },
             { Action := "INSERT", RegexPatternString := "c" }]) none],
       Interaction.direct (Call.GetRegexPatternSet "id") none] ∧
    (resourceAwsWafRegexPatternSetUpdate (sampleClient sampleGetOk) samplePatternSetData
        [staleError] []).result = Outcome.ok () :=
  ⟨by decide, by decide, by decide, by decide, by decide⟩

/-! ## The Delete handler of the pattern set -/

theorem diff_nil_right (S : List String) :
    diffWafRegexPatternSetPatternStrings S [] =
      S.map (fun s => { Action := ChangeActionDelete, RegexPatternString := s }) := by
  rw [diff_eq, deletedStrings_nil_right]
  simp

theorem diffLoop_nil_right :
    ∀ (old : List String) (upd : List RegexPatternSetUpdate),
      (diffWafRegexPatternSetPatternStringsLoop old ⟨[], []⟩ upd).2 = ⟨[], []⟩
  | [], upd => rfl
  | op :: rest, upd => by
    rw [diffLoop_cons_not_mem op rest ⟨[], []⟩ upd (by simp)]
    exact diffLoop_nil_right rest _

theorem leaves_nil_right (S : List String) :
    diffWafRegexPatternSetPatternStringsLeaves S [] = [] := by
  simp [diffWafRegexPatternSetPatternStringsLeaves, diffLoop_nil_right, Slice.cells]

/-- Every round of a draining update carries one Delete per stored pattern and nothing else,
and leaves the empty target slice empty. -/
theorem drain_step {σ : Type} (client : AWSClient σ) (id : String) (o : List String)
    (k : List String) (s : σ) (hk : k = []) :
    ((newWafRetryer client "global").attempt
        (updateWafRegexPatternSetPatternStringsFunc client.wafconn id o) k s).2.1.updatesPatternSet
        id (o.map (fun x => { Action := ChangeActionDelete, RegexPatternString := x })) = true ∧
    ((newWafRetryer client "global").attempt
        (updateWafRegexPatternSetPatternStringsFunc client.wafconn id o) k s).2.2.1 = [] := by
  subst hk
  unfold WafRetryer.attempt
  rcases htok : (newWafRetryer client "global").Connection.GetChangeToken s with ⟨t, s1⟩
  cases t with
  | error e => simp [Attempt.updatesPatternSet]
  | ok token =>
    simp only [updateWafRegexPatternSetPatternStringsFunc, diff_nil_right, leaves_nil_right]
    rcases hup : client.wafconn.UpdateRegexPatternSet token id
      (o.map (fun x => { Action := ChangeActionDelete, RegexPatternString := x })) s1 with ⟨r, s2⟩
    cases r <;> simp [Attempt.updatesPatternSet, hup]

theorem deleteSet_step {σ : Type} (client : AWSClient σ) (id : String) (k : Unit) (s : σ) :
    ((newWafRetryer client "global").attempt
        (deleteRegexPatternSetFunc client.wafconn id) k s).2.1.deletesPatternSet id = true := by
  unfold WafRetryer.attempt
  rcases htok : (newWafRetryer client "global").Connection.GetChangeToken s with ⟨t, s1⟩
  cases t with
  | error e => simp [Attempt.deletesPatternSet]
  | ok token =>
    simp only [deleteRegexPatternSetFunc]
    rcases hup : client.wafconn.DeleteRegexPatternSet token id s1 with ⟨r, s2⟩
    cases r <;> simp [Attempt.deletesPatternSet, hup]

theorem succeeded_iff_ok (attempts : List Attempt) (a : Attempt)
    (h : attempts.getLast? = some a) :
    succeeded attempts = true ↔ a.outcome = Outcome.ok () := by
  unfold succeeded
  rw [h]
  cases a with
  | noToken e => simp [Attempt.outcome]
  | panicked t => simp [Attempt.outcome]
  | issued c err => cases err <;> simp [Attempt.outcome]

/-- The draining update of the Delete handler: one invocation of the retryer, every round of
which carries one Delete per stored pattern; it returns no error exactly when the invocation
succeeded and an error otherwise. -/
theorem drain_spec {σ : Type} (client : AWSClient σ) (id : String) (o : List String) (s : σ)
    (log : List Interaction) :
    ∃ drain : List Attempt,
      (updateWafRegexPatternSetPatternStrings id o [] client s log).2.2 =
        log ++ [Interaction.retried drain] ∧
      (∀ a ∈ drain, a.updatesPatternSet id
        (o.map (fun x => { Action := ChangeActionDelete, RegexPatternString := x })) = true) ∧
      ((succeeded drain = true ∧
          (updateWafRegexPatternSetPatternStrings id o [] client s log).1 = Outcome.ok ()) ∨
        (succeeded drain = false ∧
          ∃ e, (updateWafRegexPatternSetPatternStrings id o [] client s log).1 =
            Outcome.error e)) := by
  rcases retry_spec (newWafRetryer client "global")
    (updateWafRegexPatternSetPatternStringsFunc client.wafconn id o) (fun k => k = [])
    (fun a => a.updatesPatternSet id
      (o.map (fun x => { Action := ChangeActionDelete, RegexPatternString := x })) = true)
    (fun k s hk => drain_step client id o k s hk) [] s rfl with ⟨a, hlast, hout, hall⟩
  have hsucc := succeeded_iff_ok _ a hlast
  have ha := hall a (List.mem_of_getLast?_eq_some hlast)
  unfold updateWafRegexPatternSetPatternStrings
  rcases hrt : (newWafRetryer client "global").RetryWithToken
    (updateWafRegexPatternSetPatternStringsFunc client.wafconn id o) [] s with ⟨r, k, s1, atts⟩
  rw [hrt] at hsucc hout hall
  simp only at hsucc hout hall
  refine ⟨atts, ?_, hall, ?_⟩
  · cases r <;> rfl
  · cases r with
    | ok v =>
      left
      exact ⟨hsucc.2 (by rw [hout]; rfl), rfl⟩
    | error e =>
      right
      refine ⟨?_, _, rfl⟩
      cases hs : succeeded atts
      · rfl
      · rw [hsucc.1 hs] at hout
        simp [Outcome.void] at hout
    | panic =>
      exfalso
      cases a with
      | noToken e => simp [Attempt.outcome, Outcome.void] at hout
      | panicked t => simp [Attempt.updatesPatternSet] at ha
      | issued c err => cases err <;> simp [Attempt.outcome, Outcome.void] at hout

/-- The delete-set step of the Delete handler: one invocation of the retryer, every round of
which issues the delete-set call for the ID of the resource. -/
theorem deleteSet_spec {σ : Type} (client : AWSClient σ) (d : RegexPatternSetData) (s : σ)
    (log : List Interaction) :
    ∃ del : List Attempt,
      (resourceAwsWafRegexPatternSetDeleteSet client d s log).log =
        log ++ [Interaction.retried del] ∧
      (∀ a ∈ del, a.deletesPatternSet d.Id = true) ∧
      (succeeded del = true ↔
        (resourceAwsWafRegexPatternSetDeleteSet client d s log).result = Outcome.ok ()) := by
  rcases retry_spec (newWafRetryer client "global")
    (deleteRegexPatternSetFunc client.wafconn d.Id) (fun _ => True)
    (fun a => a.deletesPatternSet d.Id = true)
    (fun k s _ => ⟨deleteSet_step client d.Id k s, trivial⟩) () s trivial
    with ⟨a, hlast, hout, hall⟩
  have hsucc := succeeded_iff_ok _ a hlast
  unfold resourceAwsWafRegexPatternSetDeleteSet
  rcases hrt : (newWafRetryer client "global").RetryWithToken
    (deleteRegexPatternSetFunc client.wafconn d.Id) () s with ⟨r, k, s1, atts⟩
  rw [hrt] at hsucc hout hall
  simp only at hsucc hout hall
  refine ⟨atts, ?_, hall, ?_⟩
  · cases r <;> rfl
  · rw [hsucc, hout]
    cases r <;> simp [Outcome.void]

/-- C7: the Delete handler of the pattern set never issues the delete-set call before the set
is drained. With a non-empty stored list it first makes one update through the retryer, every
round of which carries exactly one Delete per stored pattern and no Insert; only if that update
succeeds does it go on to the delete-set call; if the update fails it returns an error and its
log holds no delete-set call. With an empty stored list the delete-set call is all it issues. -/
theorem delete_drains_before_delete_set {σ : Type} (client : AWSClient σ)
    (d : RegexPatternSetData) (s : σ) :
    (d.regex_pattern_strings = [] →
      ∃ del : List Attempt,
        (resourceAwsWafRegexPatternSetDelete client d s []).log = [Interaction.retried del] ∧
        (∀ a ∈ del, a.deletesPatternSet d.Id = true)) ∧
    (d.regex_pattern_strings ≠ [] →
      ∃ drain : List Attempt,
        (∀ a ∈ drain, a.updatesPatternSet d.Id (d.regex_pattern_strings.map
          (fun x => { Action := ChangeActionDelete, RegexPatternString := x })) = true) ∧
        ((succeeded drain = true ∧
            ∃ del : List Attempt,
              (resourceAwsWafRegexPatternSetDelete client d s []).log =
                [Interaction.retried drain, Interaction.retried del] ∧
              (∀ a ∈ del, a.deletesPatternSet d.Id = true) ∧
              (succeeded del = true ↔
                (resourceAwsWafRegexPatternSetDelete client d s []).result = Outcome.ok ())) ∨
          (succeeded drain = false ∧
            (resourceAwsWafRegexPatternSetDelete client d s []).log =
              [Interaction.retried drain] ∧
            ∃ e, (resourceAwsWafRegexPatternSetDelete client d s []).result =
              Outcome.error e))) := by
  constructor
  · intro hnil
    rcases deleteSet_spec client d s [] with ⟨del, h1, h2, _⟩
    refine ⟨del, ?_, h2⟩
    simpa [resourceAwsWafRegexPatternSetDelete, hnil] using h1
  · intro hne
    have hlen : d.regex_pattern_strings.length > 0 := List.length_pos.2 hne
    rcases drain_spec client d.Id d.regex_pattern_strings s [] with ⟨drain, hlog, hall, hcase⟩
    refine ⟨drain, hall, ?_⟩
    unfold resourceAwsWafRegexPatternSetDelete
    simp only [hlen, if_true]
    rcases hupd : updateWafRegexPatternSetPatternStrings d.Id d.regex_pattern_strings []
      client s [] with ⟨r, s1, log1⟩
    rw [hupd] at hlog hcase
    simp only [List.nil_append] at hlog hcase
    subst hlog
    rcases hcase with ⟨hs, hr⟩ | ⟨hs, e, hr⟩
    · left
      subst hr
      rcases deleteSet_spec client d s1 [Interaction.retried drain] with ⟨del, h1, h2, h3⟩
      exact ⟨hs, del, by simpa using h1, h2, h3⟩
    · right
      subst hr
      exact ⟨hs, rfl, _, rfl⟩

/-- Witness of C7: a stored list a, c whose draining update meets a conflict and is retried. -/
theorem delete_drains_before_delete_set_witness :
    samplePatternSetData.regex_pattern_strings ≠ [] ∧
    (resourceAwsWafRegexPatternSetDelete (sampleClient sampleGetOk) samplePatternSetData
        [staleError] []).log =
      [Interaction.retried
        [Attempt.issued (Call.UpdateRegexPatternSet "token" "id"
            [{ Action := "DELETE", RegexPatternString := "a" },
             { Action := "DELETE", RegexPatternString := "c" }]) (some staleError),
         Attempt.issued (Call.UpdateRegexPatternSet "token" "id"
            [{ Action := "DELETE", RegexPatternString := "a" },
             { Action := "DELETE", RegexPatternString := "c" }]) none],
       Interaction.retried [Attempt.issued (Call.DeleteRegexPatternSet "token" "id") none]] ∧
    ∃ drain : List Attempt,
      (∀ a ∈ drain, a.updatesPatternSet samplePatternSetData.Id
        (samplePatternSetData.regex_pattern_strings.map
          (fun x => { Action := ChangeActionDelete, RegexPatternString := x })) = true) ∧
      ((succeeded drain = true ∧
          ∃ del : List Attempt,
            (resourceAwsWafRegexPatternSetDelete (sampleClient sampleGetOk) samplePatternSetData
                [staleError] []).log =
              [Interaction.retried drain, Interaction.retried del] ∧
            (∀ a ∈ del, a.deletesPatternSet samplePatternSetData.Id = true) ∧
            (succeeded del = true ↔
              (resourceAwsWafRegexPatternSetDelete (sampleClient sampleGetOk)
                samplePatternSetData [staleError] []).result = Outcome.ok ())) ∨
        (succeeded drain = false ∧
          (resourceAwsWafRegexPatternSetDelete (sampleClient sampleGetOk) samplePatternSetData
              [staleError] []).log =
            [Interaction.retried drain] ∧
          ∃ e, (resourceAwsWafRegexPatternSetDelete (sampleClient sampleGetOk)
            samplePatternSetData [staleError] []).result = Outcome.error e)) :=
  ⟨by decide, by decide,
   (delete_drains_before_delete_set (sampleClient sampleGetOk) samplePatternSetData
      [staleError]).2 (by decide)⟩

/-! ## The first round of an update -/

theorem loop_first {σ κ α : Type} (wr : WafRetryer σ) (f : WithTokenFunc σ κ α) (n : Nat)
    (k : κ) (s : σ) (attempts : List Attempt) :
    ∃ more : List Attempt,
      (wr.loop f n k s attempts).2.2.2 = attempts ++ (wr.attempt f k s).2.1 :: more := by
  cases n with
  | zero => exact ⟨[], by simp [WafRetryer.loop]⟩
  | succ n =>
    rcases hatt : wr.attempt f k s with ⟨r, a, k1, s1⟩
    cases r with
    | ok v => exact ⟨[], by simp [WafRetryer.loop, hatt]⟩
    | panic => exact ⟨[], by simp [WafRetryer.loop, hatt]⟩
    | error e =>
      by_cases hr : wr.retryable e = true
      · rcases loop_spec wr f (fun _ => True) (fun _ => True)
          (fun _ _ _ => ⟨trivial, trivial⟩) n k1 s1 (attempts ++ [a]) trivial
          with ⟨pre, a0, h1, _, _⟩
        refine ⟨pre ++ [a0], ?_⟩
        simp only [WafRetryer.loop, hatt, hr, if_true]
        rw [h1]
        simp
      · exact ⟨[], by simp [WafRetryer.loop, hatt, hr]⟩

theorem update_step {σ : Type} (client : AWSClient σ) (id : String) (o k : List String)
    (s : σ) :
    ((newWafRetryer client "global").attempt
        (updateWafRegexPatternSetPatternStringsFunc client.wafconn id o) k s).2.1.updatesPatternSet
        id (diffWafRegexPatternSetPatternStrings o k) = true := by
  unfold WafRetryer.attempt
  rcases htok : (newWafRetryer client "global").Connection.GetChangeToken s with ⟨t, s1⟩
  cases t with
  | error e => simp [Attempt.updatesPatternSet]
  | ok token =>
    simp only [updateWafRegexPatternSetPatternStringsFunc]
    rcases hup : client.wafconn.UpdateRegexPatternSet token id
      (diffWafRegexPatternSetPatternStrings o k) s1 with ⟨r, s2⟩
    cases r <;> simp [Attempt.updatesPatternSet, hup]

theorem patternRead_log {σ : Type} (client : AWSClient σ) (d : RegexPatternSetData) (s : σ)
    (log : List Interaction) :
    ∃ err, (resourceAwsWafRegexPatternSetRead client d s log).log =
      log ++ [Interaction.direct (Call.GetRegexPatternSet d.Id) err] := by
  unfold resourceAwsWafRegexPatternSetRead
  rcases hget : client.wafconn.GetRegexPatternSet d.Id s with ⟨r, s1⟩
  cases r with
  | error err =>
    cases hnf : isAWSErr err "WAFNonexistentItemException" "" <;> exact ⟨some err, by simp [hnf]⟩
  | ok resp => exact ⟨none, rfl⟩

/-- When `regex_pattern_strings` has changed, the Update handler makes exactly one invocation
of the retryer; its first round carries the diff of the old and the new value (or gets no
token); the Get of the Read follows if the invocation succeeded, and nothing otherwise. What
later rounds carry is not stated here. -/
theorem update_changed_first_round {σ : Type} (client : AWSClient σ)
    (d : RegexPatternSetData) (s : σ) (log : List Interaction) (hc : d.HasChange = true) :
    ∃ (first : Attempt) (more : List Attempt) (rest : List Interaction),
      (resourceAwsWafRegexPatternSetUpdate client d s log).log =
        log ++ Interaction.retried (first :: more) :: rest ∧
      first.updatesPatternSet d.Id (diffWafRegexPatternSetPatternStrings
        d.regex_pattern_strings_prior d.regex_pattern_strings) = true ∧
      ((succeeded (first :: more) = true ∧
          ∃ err, rest = [Interaction.direct (Call.GetRegexPatternSet d.Id) err]) ∨
        (succeeded (first :: more) = false ∧ rest = [])) := by
  rcases loop_first (newWafRetryer client "global")
    (updateWafRegexPatternSetPatternStringsFunc client.wafconn d.Id
      d.regex_pattern_strings_prior) (newWafRetryer client "global").retries
    d.regex_pattern_strings s [] with ⟨more, hmore⟩
  have hfirst := update_step client d.Id d.regex_pattern_strings_prior d.regex_pattern_strings s
  have hsucc := succeeded_retried (newWafRetryer client "global")
    (updateWafRegexPatternSetPatternStringsFunc client.wafconn d.Id
      d.regex_pattern_strings_prior) d.regex_pattern_strings s
  generalize ((newWafRetryer client "global").attempt
    (updateWafRegexPatternSetPatternStringsFunc client.wafconn d.Id
      d.regex_pattern_strings_prior) d.regex_pattern_strings s).2.1 = first at hmore hfirst
  refine ⟨first, more, ?_⟩
  unfold resourceAwsWafRegexPatternSetUpdate updateWafRegexPatternSetPatternStrings
  simp only [hc, if_true, RegexPatternSetData.GetChange]
  unfold WafRetryer.RetryWithToken at hsucc ⊢
  simp only [List.nil_append] at hmore
  rcases hrt : (newWafRetryer client "global").loop
    (updateWafRegexPatternSetPatternStringsFunc client.wafconn d.Id
      d.regex_pattern_strings_prior) (newWafRetryer client "global").retries
    d.regex_pattern_strings s [] with ⟨r, k, s1, atts⟩
  rw [hrt] at hmore hsucc
  simp only at hmore hsucc
  subst hmore
  cases r with
  | ok v =>
    rcases patternRead_log client d s1 (log ++ [Interaction.retried (first :: more)])
      with ⟨err, hlog⟩
    refine ⟨[Interaction.direct (Call.GetRegexPatternSet d.Id) err], ?_, hfirst, ?_⟩
    · simpa using hlog
    · left
      exact ⟨hsucc.2 ⟨v, rfl⟩, err, rfl⟩
  | error e =>
    refine ⟨[], by simp, hfirst, ?_⟩
    right
    refine ⟨?_, rfl⟩
    cases hs : succeeded _
    · rfl
    · rcases hsucc.1 hs with ⟨v, hv⟩
      simp at hv
  | panic =>
    refine ⟨[], by simp, hfirst, ?_⟩
    right
    refine ⟨?_, rfl⟩
    cases hs : succeeded _
    · rfl
    · rcases hsucc.1 hs with ⟨v, hv⟩
      simp at hv

/-! ## The search in a slice -/

theorem sliceContainsStringFrom_first (s : String) :
    ∀ (l : List String) (k : Nat), s ∈ l →
      ∃ i : Nat, sliceContainsStringFrom s l k = (((k + i : Nat) : Int), true) ∧
        l[i]? = some s ∧ ∀ j : Nat, j < i → l[j]? ≠ some s
  | [], _, h => by simp at h
  | v :: rest, k, h => by
    by_cases hv : v = s
    · subst hv
      refine ⟨0, by simp [sliceContainsStringFrom], by simp, ?_⟩
      intro j hj
      omega
    · have hmem : s ∈ rest := by
        rcases List.mem_cons.1 h with h1 | h1
        · exact absurd h1.symm hv
        · exact h1
      rcases sliceContainsStringFrom_first s rest (k + 1) hmem with ⟨i, h1, h2, h3⟩
      refine ⟨i + 1, ?_, by simpa using h2, ?_⟩
      · simp only [sliceContainsStringFrom, hv, if_false, h1]
        congr 2
        omega
      · intro j hj
        cases j with
        | zero => simpa using hv
        | succ j =>
          have := h3 j (by omega)
          simpa using this

/-- C11: when `s` occurs in `slice`, `sliceContainsString(slice, s)` returns `(i, true)` where
`i` is the smallest index whose element equals `s` (so `0 <= i < len(slice)`); it returns
`(-1, false)` exactly when no element of `slice` equals `s`; the comparison is equality of
strings. -/
theorem sliceContainsString_first_index (slice : List String) (s : String) :
    (s ∈ slice →
      ∃ i : Nat, sliceContainsString slice s = ((i : Int), true) ∧ i < slice.length ∧
        slice[i]? = some s ∧ ∀ j : Nat, j < i → slice[j]? ≠ some s) ∧
    (sliceContainsString slice s = (-1, false) ↔ s ∉ slice) ∧
    ((sliceContainsString slice s).2 = true ↔ s ∈ slice) := by
  have hin : s ∈ slice →
      ∃ i : Nat, sliceContainsString slice s = ((i : Int), true) ∧ i < slice.length ∧
        slice[i]? = some s ∧ ∀ j : Nat, j < i → slice[j]? ≠ some s := by
    intro h
    rcases sliceContainsStringFrom_first s slice 0 h with ⟨i, h1, h2, h3⟩
    refine ⟨i, by simpa [sliceContainsString] using h1, ?_, h2, h3⟩
    rcases List.getElem?_eq_some.1 h2 with ⟨hlt, _⟩
    exact hlt
  have hout : s ∉ slice → sliceContainsString slice s = (-1, false) :=
    fun h => sliceContainsStringFrom_of_not_mem s slice 0 h
  refine ⟨hin, ⟨?_, hout⟩, ?_, ?_⟩
  · intro h hmem
    rcases hin hmem with ⟨i, h1, _⟩
    rw [h1] at h
    simp at h
  · intro h
    by_contra hmem
    rw [hout hmem] at h
    simp at h
  · intro hmem
    rcases hin hmem with ⟨i, h1, _⟩
    rw [h1]

/-- Witness of C11: the string a first occurs at index 1 of x, a, b, a. -/
theorem sliceContainsString_first_index_witness :
    sliceContainsString ["x", "a", "b", "a"] "a" = (1, true) ∧
    ∃ i : Nat, sliceContainsString ["x", "a", "b", "a"] "a" = ((i : Int), true) ∧
      i < (["x", "a", "b", "a"] : List String).length ∧
      (["x", "a", "b", "a"] : List String)[i]? = some "a" ∧
      ∀ j : Nat, j < i → (["x", "a", "b", "a"] : List String)[j]? ≠ some "a" :=
  ⟨by decide, (sliceContainsString_first_index ["x", "a", "b", "a"] "a").1 (by decide)⟩

/-! ## The diff of lists with duplicates -/

theorem count_deletedStrings (a : String) :
    ∀ (old w : List String), (deletedStrings old w).count a = old.count a - w.count a
  | [], _ => by simp [deletedStrings]
  | op :: rest, w => by
    by_cases hm : op ∈ w
    · have hpos : 0 < w.count op := List.count_pos_iff.2 hm
      simp only [deletedStrings, hm, if_true, count_deletedStrings a rest (w.erase op),
        List.count_erase, List.count_cons]
      by_cases ha : op = a
      · subst ha
        simp only [beq_self_eq_true, if_true]
        omega
      · have hb : (op == a) = false := by simpa using ha
        simp only [hb, Bool.false_eq_true, if_false]
        omega
    · have hzero : w.count op = 0 := List.count_eq_zero.2 hm
      simp only [deletedStrings, hm, if_false, List.count_cons,
        count_deletedStrings a rest w]
      by_cases ha : op = a
      · subst ha
        simp only [beq_self_eq_true, if_true]
        omega
      · have hb : (op == a) = false := by simpa using ha
        simp only [hb, Bool.false_eq_true, if_false]
        omega

theorem deletedStrings_multiset (old w : List String) :
    ((deletedStrings old w : List String) : Multiset String) =
      (old : Multiset String) - (w : Multiset String) := by
  ext a
  rw [Multiset.count_sub, Multiset.coe_count, Multiset.coe_count, Multiset.coe_count,
    count_deletedStrings]

theorem filter_delete_of_diff (old new : List String) :
    ((diffWafRegexPatternSetPatternStrings old new).filter
        (fun u => decide (u.Action = ChangeActionDelete))).map (fun u => u.RegexPatternString) =
      deletedStrings old new := by
  have hne : ¬ ChangeActionInsert = ChangeActionDelete := by decide
  rw [diff_eq, List.filter_append, List.map_append]
  simp [List.filter_map, Function.comp_def, hne]

theorem filter_insert_of_diff (old new : List String) :
    ((diffWafRegexPatternSetPatternStrings old new).filter
        (fun u => decide (u.Action = ChangeActionInsert))).map (fun u => u.RegexPatternString) =
      new.diff old := by
  have hne : ¬ ChangeActionDelete = ChangeActionInsert := by decide
  rw [diff_eq, List.filter_append, List.map_append]
  simp [List.filter_map, Function.comp_def, hne]

/-- C12: for arbitrary lists `old` and `new`, duplicates allowed, the strings of the Delete
operations of the diff form the multiset difference `old - new`, the strings of its Insert
operations form `new - old`, and the number of Inserts minus the number of Deletes is
`len(new) - len(old)`. -/
theorem diff_multiset_difference (old new : List String) :
    ((((diffWafRegexPatternSetPatternStrings old new).filter
        (fun u => decide (u.Action = ChangeActionDelete))).map
          (fun u => u.RegexPatternString) : List String) : Multiset String) =
      (old : Multiset String) - (new : Multiset String) ∧
    ((((diffWafRegexPatternSetPatternStrings old new).filter
        (fun u => decide (u.Action = ChangeActionInsert))).map
          (fun u => u.RegexPatternString) : List String) : Multiset String) =
      (new : Multiset String) - (old : Multiset String) ∧
    (((diffWafRegexPatternSetPatternStrings old new).filter
        (fun u => decide (u.Action = ChangeActionInsert))).length : Int) -
      (((diffWafRegexPatternSetPatternStrings old new).filter
        (fun u => decide (u.Action = ChangeActionDelete))).length : Int) =
      (new.length : Int) - (old.length : Int) := by
  have hd := filter_delete_of_diff old new
  have hi := filter_insert_of_diff old new
  have hdm : ((deletedStrings old new : List String) : Multiset String) =
      (old : Multiset String) - (new : Multiset String) := deletedStrings_multiset old new
  have him : ((new.diff old : List String) : Multiset String) =
      (new : Multiset String) - (old : Multiset String) := (Multiset.coe_sub new old).symm
  refine ⟨by rw [hd, hdm], by rw [hi, him], ?_⟩
  have hdl : ((diffWafRegexPatternSetPatternStrings old new).filter
      (fun u => decide (u.Action = ChangeActionDelete))).length =
      Multiset.card ((old : Multiset String) - (new : Multiset String)) := by
    rw [← hdm, Multiset.coe_card, ← hd, List.length_map]
  have hil : ((diffWafRegexPatternSetPatternStrings old new).filter
      (fun u => decide (u.Action = ChangeActionInsert))).length =
      Multiset.card ((new : Multiset String) - (old : Multiset String)) := by
    rw [← him, Multiset.coe_card, ← hi, List.length_map]
  have h1 := congrArg Multiset.card
    (Multiset.sub_add_inter (old : Multiset String) (new : Multiset String))
  have h2 := congrArg Multiset.card
    (Multiset.sub_add_inter (new : Multiset String) (old : Multiset String))
  rw [Multiset.card_add, Multiset.coe_card] at h1 h2
  rw [Multiset.inter_comm] at h2
  rw [hdl, hil]
  omega
